import Mathlib

/-!
# ddns: the reconciliation pass, the resolver and the daemon loop of `src/main.go`

The program of `src/main.go` is embedded as pure functions.  Everything the program reaches
over the network is a parameter: the NS1 record client is a `Client` over an arbitrary world
type (each call returns its result and the next world), and the two address lookups are a
`Net`.  Every call the program makes is written to a trace, in program order, so that
statements about "which calls are issued" are statements about that trace.

The library functions the program calls are not part of the repository; they are small and
are written out here after the libraries: `dns.NewRecord`, `dns.NewAv4Answer`,
`dns.NewAv6Answer`, `Record.AddAnswer`, `Answer.String` (package
`gopkg.in/ns1/ns1-go.v2/rest/model/dns`) and `net.ParseIP`, `IP.To4`, `IP.UnmarshalText`,
`IP.String` (Go standard library, package `net`, as in Go 1.16 and before).  Strings are lists
of characters; the parsers only look for ASCII characters, so bytes and characters agree for
them.

A pass can stop in a run-time panic: lines 106 and 130 dereference `record.Answers[0]`, which
is a pointer and may be nil.  The panic is the last action of the trace, and nothing runs
after it.
-/

namespace DDNS

/-! ## Data model (`src/main.go`, lines 19-45) -/

/-- Basic configuration (`type Basic struct`). -/
structure Basic where
  Interval : Int
  APIKey : String
  Zone : String
  deriving DecidableEq

/-- QueryAddress configuration (`type QueryAddress struct`). -/
structure QueryAddress where
  IPv4 : String
  IPv6 : String
  deriving DecidableEq

/-- Domain configuration (`type Domain struct`). -/
structure Domain where
  Name : String
  IPv4 : Bool
  IPv6 : Bool
  Replace : Bool
  deriving DecidableEq

/-- Config file structure (`type Config struct`). -/
structure Config where
  Basic : Basic
  QueryAddresses : QueryAddress
  Domains : List Domain
  deriving DecidableEq

/-! ## Go values the program handles -/

/-- A Go `error` value.  The program compares errors with the two sentinels of the NS1 client
(`err == ns1.ErrRecordMissing`, `err == ns1.ErrZoneMissing`); every other error is `other`
with its text. -/
inductive GoError where
  | ErrRecordMissing
  | ErrZoneMissing
  | other (msg : String)
  deriving DecidableEq

/-- The method `Error()` of an error value. -/
def GoError.Error : GoError → String
  | .ErrRecordMissing => "record does not exist"
  | .ErrZoneMissing => "zone does not exist"
  | .other msg => msg

deriving instance DecidableEq for Except

/-- An answer of a record (`dns.Answer`): the program reads and writes only `Rdata`. -/
structure Answer where
  Rdata : List String
  deriving DecidableEq

/-- The text `fmt.Sprint(rdata)` of a slice of strings: the strings separated by single spaces,
between square brackets. -/
def Sprint (rdata : List String) : List Char :=
  '[' :: (" ".intercalate rdata).toList ++ [']']

/-- The function `strings.Trim(s, cutset)`: `s` without the leading and trailing characters that
are in `cutset`. -/
def Trim (s cutset : List Char) : List Char :=
  ((s.dropWhile (fun c => cutset.contains c)).reverse.dropWhile
    (fun c => cutset.contains c)).reverse

/-- The method `Answer.String`: `strings.Trim(fmt.Sprint(a.Rdata), "[]")`. -/
def Answer.String (a : Answer) : String :=
  String.mk (Trim (Sprint a.Rdata) ['[', ']'])

/-- The constructors `dns.NewAv4Answer(host)` and `dns.NewAv6Answer(host)`:
both build an answer whose rdata is the one string `host`. -/
def NewAv4Answer (host : String) : Answer := ⟨[host]⟩

/-- See `NewAv4Answer`. -/
def NewAv6Answer (host : String) : Answer := ⟨[host]⟩

/-- A DNS record (`dns.Record`), with the fields the program reads or writes; `RType` is the
field `Type`.  `Answers` is a slice of pointers (`[]*Answer`): `none` is the nil pointer. -/
structure Record where
  ID : String
  Zone : String
  Domain : String
  RType : String
  TTL : Int
  Answers : List (Option Answer)
  deriving DecidableEq

/-- The test `strings.HasSuffix(strings.ToLower(domain), strings.ToLower(zone))` of
`dns.NewRecord`.  `lower` is the case mapping of one character (`unicode.ToLower`); it is a
parameter, and the identity gives the releases of the library that compare without folding. -/
def hasZoneSuffix (lower : Char → Char) (domain zone : String) : Bool :=
  (zone.toList.map lower).isSuffixOf (domain.toList.map lower)

/-- The constructor `dns.NewRecord(zone, domain, t)`: a record without ID, TTL and answers; when
`domain` does not end with `zone`, the record is named `domain + "." + zone`. -/
def NewRecord (lower : Char → Char) (zone domain t : String) : Record :=
  { ID := ""
    Zone := zone
    Domain := if hasZoneSuffix lower domain zone then domain else domain ++ "." ++ zone
    RType := t
    TTL := 0
    Answers := [] }

/-- The method `Record.AddAnswer`: appends the answer. -/
def Record.AddAnswer (r : Record) (ans : Answer) : Record :=
  { r with Answers := r.Answers ++ [some ans] }

/-! ## The record client and the trace -/

/-- The record service of the NS1 client (`client.Records`), over a world `σ`: every call takes
the world before the call and returns its result together with the world after it.  `Get`
returns the record or an error; `Create`, `Update` and `Delete` return their error, if any. -/
structure Client (σ : Type) where
  Get : String → String → String → σ → Except GoError Record × σ
  Create : Record → σ → Option GoError × σ
  Update : Record → σ → Option GoError × σ
  Delete : String → String → String → σ → Option GoError × σ

/-- One observable action of a pass: a call of the client with its result, a line printed
with `fmt.Printf`, or the run-time panic of a nil pointer dereference, which ends the pass. -/
inductive Op where
  | get (zone name t : String) (res : Except GoError Record)
  | create (r : Record) (err : Option GoError)
  | update (r : Record) (err : Option GoError)
  | delete (zone name t : String) (err : Option GoError)
  | print (line : String)
  | panic
  deriving DecidableEq

/-- An action together with the position, in `configuration.Domains`, of the entry the loop was
processing when it happened (the position is bookkeeping of the trace, not a program value). -/
structure Event where
  idx : Nat
  op : Op
  deriving DecidableEq

/-! ## `UpdateDomains` (`src/main.go`, lines 87-158) -/

/-- The condition of lines 106 and 130:
`len(record.Answers) != 1 || (*record.Answers[0]).String() != ip || record.TTL != 60`.
The result is `none` when the evaluation panics: there is one answer and it is the nil pointer,
which `*record.Answers[0]` dereferences. -/
def differs (record : Record) (ip : String) : Option Bool :=
  match record.Answers with
  | [some a] => some (a.String != ip || record.TTL != 60)
  | [none] => none
  | _ => some true

/-- The actions end in a panic. -/
def panicked (ops : List Op) : Bool := ops.contains Op.panic

/-- The record built at lines 91-95 (type `A`) and 115-119 (type `AAAA`). -/
def desiredRecord (lower : Char → Char) (zone name t : String) (answer : Answer) : Record :=
  ({ NewRecord lower zone name t with TTL := 60, RType := t }).AddAnswer answer

/-- The body of `if domain.IPv4` (lines 91-112, with `t = "A"`), which is also the body of
`if domain.IPv6` (lines 115-136, with `t = "AAAA"`): read the record, create it when the read
answers `ErrRecordMissing`, update it when it differs; the comparison of line 106 (130) may
panic. -/
def syncRecord {σ : Type} (lower : Char → Char) (client : Client σ) (zone name t ip : String)
    (answer : Answer) (w : σ) : σ × List Op :=
  let newRecord := desiredRecord lower zone name t answer
  match client.Get zone name t w with
  | (.error err, w1) =>
    if err = GoError.ErrRecordMissing then
      match client.Create newRecord w1 with
      | (some e, w2) =>
        (w2, [.get zone name t (.error err), .create newRecord (some e),
          .print ("Failed to create missing DNS record for " ++ name ++ ": " ++ e.Error ++ "\n")])
      | (none, w2) => (w2, [.get zone name t (.error err), .create newRecord none])
    else
      (w1, [.get zone name t (.error err),
        .print ("Failed to get current DNS configuration for " ++ name ++ ": " ++ err.Error
          ++ "\n")])
  | (.ok record, w1) =>
    match differs record ip with
    | none => (w1, [.get zone name t (.ok record), .panic])
    | some true =>
      let newRecord := { newRecord with ID := record.ID }
      match client.Update newRecord w1 with
      | (some e, w2) =>
        (w2, [.get zone name t (.ok record), .update newRecord (some e),
          .print ("Failed to update DNS record for " ++ name ++ ": " ++ e.Error ++ "\n")])
      | (none, w2) => (w2, [.get zone name t (.ok record), .update newRecord none])
    | some false => (w1, [.get zone name t (.ok record)])

/-- One `client.Records.Delete(zone, name, t)` with its error handling (lines 140-143, 146-149,
151-154): an error other than `ErrRecordMissing` is printed. -/
def removeRecord {σ : Type} (client : Client σ) (zone name t : String) (w : σ) : σ × List Op :=
  match client.Delete zone name t w with
  | (some e, w1) =>
    if e ≠ GoError.ErrRecordMissing then
      (w1, [.delete zone name t (some e),
        .print ("Failed to remove conflicting " ++ t ++ " record for " ++ name ++ ": " ++ e.Error
          ++ "\n")])
    else (w1, [.delete zone name t (some e)])
  | (none, w1) => (w1, [.delete zone name t none])

/-- Run `f` when `b` holds (an `if b { ... }` of the loop body), otherwise do nothing. -/
def whenB {σ : Type} (b : Bool) (f : σ → σ × List Op) (w : σ) : σ × List Op :=
  if b then f w else (w, [])

/-- Sequence two parts of the loop body: worlds are threaded, traces are appended, and nothing
runs after a panic. -/
def andThen {σ : Type} (f g : σ → σ × List Op) (w : σ) : σ × List Op :=
  let r1 := f w
  if panicked r1.2 then r1
  else
    let r2 := g r1.1
    (r2.1, r1.2 ++ r2.2)

/-- The body of the loop of `UpdateDomains` for one entry `domain` (lines 90-156). -/
def updateDomain {σ : Type} (lower : Char → Char) (client : Client σ) (zone : String)
    (ipv4 ipv6 : String) (domain : Domain) : σ → σ × List Op :=
  andThen (whenB domain.IPv4 (syncRecord lower client zone domain.Name "A" ipv4 (NewAv4Answer ipv4)))
    (andThen (whenB domain.IPv6
        (syncRecord lower client zone domain.Name "AAAA" ipv6 (NewAv6Answer ipv6)))
      (whenB domain.Replace
        (andThen (whenB (!domain.IPv4) (removeRecord client zone domain.Name "A"))
          (andThen (whenB (!domain.IPv6) (removeRecord client zone domain.Name "AAAA"))
            (removeRecord client zone domain.Name "CNAME")))))

/-- The loop `for _, domain := range configuration.Domains`, from the entry at position `i`; a
panic ends the loop. -/
def updateLoop {σ : Type} (lower : Char → Char) (client : Client σ) (zone : String)
    (ipv4 ipv6 : String) : List Domain → Nat → σ → σ × List Event
  | [], _, w => (w, [])
  | d :: ds, i, w =>
    let r1 := updateDomain lower client zone ipv4 ipv6 d w
    if panicked r1.2 then (r1.1, r1.2.map (Event.mk i))
    else
      let r2 := updateLoop lower client zone ipv4 ipv6 ds (i + 1) r1.1
      (r2.1, r1.2.map (Event.mk i) ++ r2.2)

/-- The function `UpdateDomains(configuration, client, ipv4, ipv6)`: the world after the pass
and the trace of the pass (which ends with `panic` when the pass panics). -/
def UpdateDomains {σ : Type} (lower : Char → Char) (configuration : Config) (client : Client σ)
    (ipv4 ipv6 : String) (w : σ) : σ × List Event :=
  updateLoop lower client configuration.Basic.Zone ipv4 ipv6 configuration.Domains 0 w

/-! ## A record store on which every call takes effect -/

/-- The key `(zone, domain, type)` under which the store holds a record. -/
abbrev Key := String × String × String

/-- A record as the store holds it: every answer is an answer, none is a nil pointer. -/
abbrev Stored := { r : Record // none ∉ r.Answers }

/-- The contents of the record store: at most one record per key. -/
abbrev Store := Key → Option Stored

/-- The empty store. -/
def Store.empty : Store := fun _ => none

/-- The key a record is written under: `zones/<Zone>/<Domain>/<Type>`. -/
def Record.key (r : Record) : Key := (r.Zone, r.Domain, r.RType)

/-- The external record store when every call takes effect and nothing else changes the zone:
`Get` returns the record under the key or `ErrRecordMissing`; `Create` adds the record unless
the key is taken; `Update` replaces the record under the key or answers `ErrRecordMissing`;
`Delete` removes the record under the key or answers `ErrRecordMissing`.  A record sent with a
nil answer is refused. -/
def faithful : Client Store where
  Get zone name t s :=
    match s (zone, name, t) with
    | some r => (.ok r.val, s)
    | none => (.error .ErrRecordMissing, s)
  Create r s :=
    if h : none ∉ r.Answers then
      match s r.key with
      | some _ => (some (.other "record already exists"), s)
      | none => (none, Function.update s r.key (some ⟨r, h⟩))
    else (some (.other "invalid answers"), s)
  Update r s :=
    if h : none ∉ r.Answers then
      match s r.key with
      | some _ => (none, Function.update s r.key (some ⟨r, h⟩))
      | none => (some .ErrRecordMissing, s)
    else (some (.other "invalid answers"), s)
  Delete zone name t s :=
    match s (zone, name, t) with
    | some _ => (none, Function.update s (zone, name, t) none)
    | none => (some .ErrRecordMissing, s)

/-! ## Package `net` of the Go standard library: `ParseIP`, `To4`, `UnmarshalText` -/

/-- An address (`net.IP`, a byte slice): the list of its octets; `nil` is the empty list. -/
abbrev IP := List Nat

/-- The constant `big` of the parsers: a bound that keeps the numbers read within range. -/
def big : Nat := 0xFFFFFF

/-- The loop of `dtoi`: `n` is the number read so far and `i` the number of digits consumed. -/
def dtoiLoop : List Char → Nat → Nat → Nat × Nat × Bool
  | [], n, i => if i = 0 then (0, 0, false) else (n, i, true)
  | c :: rest, n, i =>
    if '0'.toNat ≤ c.toNat ∧ c.toNat ≤ '9'.toNat then
      let n1 := n * 10 + (c.toNat - '0'.toNat)
      if n1 ≥ big then (big, i, false) else dtoiLoop rest n1 (i + 1)
    else if i = 0 then (0, 0, false) else (n, i, true)

/-- The function `dtoi(s)`: decimal to integer; returns number, characters consumed, success. -/
def dtoi (s : List Char) : Nat × Nat × Bool := dtoiLoop s 0 0

/-- The loop of `xtoi`. -/
def xtoiLoop : List Char → Nat → Nat → Nat × Nat × Bool
  | [], n, i => if i = 0 then (0, i, false) else (n, i, true)
  | c :: rest, n, i =>
    let digit : Option Nat :=
      if '0'.toNat ≤ c.toNat ∧ c.toNat ≤ '9'.toNat then some (c.toNat - '0'.toNat)
      else if 'a'.toNat ≤ c.toNat ∧ c.toNat ≤ 'f'.toNat then some (c.toNat - 'a'.toNat + 10)
      else if 'A'.toNat ≤ c.toNat ∧ c.toNat ≤ 'F'.toNat then some (c.toNat - 'A'.toNat + 10)
      else none
    match digit with
    | some v =>
      let n1 := n * 16 + v
      if n1 ≥ big then (0, i, false) else xtoiLoop rest n1 (i + 1)
    | none => if i = 0 then (0, i, false) else (n, i, true)

/-- The function `xtoi(s)`: hexadecimal to integer; returns number, characters consumed,
success. -/
def xtoi (s : List Char) : Nat × Nat × Bool := xtoiLoop s 0 0

/-- The function `IPv4(a, b, c, d)`: the 16-byte form of the IPv4 address `a.b.c.d`. -/
def IPv4 (a b c d : Nat) : IP := [0, 0, 0, 0, 0, 0, 0, 0, 0, 0, 0xff, 0xff, a, b, c, d]

/-- The loop `for i := 0; i < IPv4len; i++` of `parseIPv4`, with `k` octets still to read:
returns the octets read and the rest of the string, or `none` where the loop returns `nil`. -/
def parseIPv4Loop : Nat → Nat → List Char → List Nat → Option (List Nat × List Char)
  | 0, _, s, p => some (p, s)
  | k + 1, i, s, p =>
    if s.length = 0 then none
    else
      let afterDot : Option (List Char) :=
        if i > 0 then (match s with
          | '.' :: r => some r
          | _ => none)
        else some s
      match afterDot with
      | none => none
      | some s1 =>
        match dtoi s1 with
        | (n, c, ok) =>
          if !ok || n > 0xFF then none
          else parseIPv4Loop k (i + 1) (s1.drop c) (p ++ [n])

/-- The function `parseIPv4(s)`: a dotted decimal address, `nil` when `s` is not one.  This is
the parser of Go 1.16 and before; later releases also refuse an octet with a leading zero. -/
def parseIPv4 (s : List Char) : IP :=
  match parseIPv4Loop 4 0 s [] with
  | some ([a, b, c, d], []) => IPv4 a b c d
  | _ => []

/-- The loop `for i < IPv6len` of `parseIPv6`, with `k` groups of 16 bits still free, so that
`i = IPv6len - 2 * k`.  Returns the values of `s`, `ip`, `i` and `ellipsis` with which the loop
is left, or `none` where the loop returns `nil`. -/
def parseIPv6Loop : Nat → List Char → IP → Int → Option (List Char × IP × Nat × Int)
  | 0, s, ip, ellipsis => some (s, ip, 16, ellipsis)
  | k + 1, s, ip, ellipsis =>
    let i := 16 - 2 * (k + 1)
    match xtoi s with
    | (n, c, ok) =>
      if !ok || n > 0xFFFF then none
      else if c < s.length && s.getD c ' ' == '.' then
        if ellipsis < 0 && i != 16 - 4 then none
        else if i + 4 > 16 then none
        else
          let ip4 := parseIPv4 s
          if ip4 = [] then none
          else
            some ([], (((ip.set i (ip4.getD 12 0)).set (i + 1) (ip4.getD 13 0)).set (i + 2)
              (ip4.getD 14 0)).set (i + 3) (ip4.getD 15 0), i + 4, ellipsis)
      else
        let ip1 := (ip.set i ((n >>> 8) % 256)).set (i + 1) (n % 256)
        let i1 := i + 2
        let s1 := s.drop c
        if s1.length = 0 then some (s1, ip1, i1, ellipsis)
        else if s1.getD 0 ' ' != ':' || s1.length == 1 then none
        else
          let s2 := s1.drop 1
          if s2.getD 0 ' ' == ':' then
            if ellipsis ≥ 0 then none
            else
              let s3 := s2.drop 1
              if s3.length = 0 then some (s3, ip1, i1, (i1 : Int))
              else parseIPv6Loop k s3 ip1 (i1 : Int)
          else parseIPv6Loop k s2 ip1 ellipsis

/-- The end of `parseIPv6`: the ellipsis is expanded when fewer than 16 bytes were read. -/
def expandEllipsis (ip : IP) (i : Nat) (ellipsis : Int) : IP :=
  if i < 16 then
    if ellipsis < 0 then []
    else
      let e := ellipsis.toNat
      let n := 16 - i
      let moved := ((List.range (i - e)).map (fun t => i - 1 - t)).foldl
        (fun q j => q.set (j + n) (q.getD j 0)) ip
      ((List.range n).map (fun t => e + n - 1 - t)).foldl (fun q j => q.set j 0) moved
  else if ellipsis ≥ 0 then []
  else ip

/-- The function `parseIPv6(s)`: an IPv6 literal, possibly with an ellipsis and a trailing
dotted IPv4 part; `nil` when `s` is not one.  This is the parser of Go 1.16 and before, which
bounds the value of a group; later releases also refuse a group of more than four digits. -/
def parseIPv6 (s : List Char) : IP :=
  let ip0 : IP := List.replicate 16 0
  let leading : Bool := s.length ≥ 2 && s.getD 0 ' ' == ':' && s.getD 1 ' ' == ':'
  if leading && (s.drop 2).length = 0 then ip0
  else
    match parseIPv6Loop 8 (if leading then s.drop 2 else s) ip0 (if leading then 0 else -1) with
    | none => []
    | some (s1, ip, i, ellipsis) =>
      if s1.length ≠ 0 then [] else expandEllipsis ip i ellipsis

/-- The function `net.ParseIP(s)`: the first `.` or `:` of `s` decides between `parseIPv4` and
`parseIPv6`; the result is `nil` or a 16-byte address. -/
def ParseIP (s : String) : IP :=
  match s.toList.find? (fun c => c == '.' || c == ':') with
  | some '.' => parseIPv4 s.toList
  | some _ => parseIPv6 s.toList
  | none => []

/-- The method `IP.To4`: the 4-byte form of an IPv4 address, `nil` for any other address. -/
def To4 (ip : IP) : IP :=
  if ip.length = 4 then ip
  else if ip.length = 16 ∧ (ip.take 10).all (· == 0) ∧ ip.getD 10 0 = 0xff ∧ ip.getD 11 0 = 0xff
  then ip.drop 12
  else []

/-- The method `IP.UnmarshalText(text)`: an empty text gives `nil` without error, any other
text goes through `ParseIP`. -/
def UnmarshalText (text : String) : Except GoError IP :=
  if text.length = 0 then .ok []
  else
    let x := ParseIP text
    if x = [] then .error (.other ("invalid IP address: " ++ text)) else .ok x

/-- The table `hexDigit` of package `net`, at index `v < 16`. -/
def hexDigit (v : Nat) : Char := "0123456789abcdef".toList.getD v '0'

/-- The function `ubtoa`: the decimal digits of a byte. -/
def ubtoa (v : Nat) : List Char :=
  if v < 10 then [hexDigit v]
  else if v < 100 then [hexDigit (v / 10), hexDigit (v % 10)]
  else [hexDigit (v / 100), hexDigit ((v / 10) % 10), hexDigit (v % 10)]

/-- The function `appendHex(dst, i)`, as the digits appended: the hexadecimal digits of `i`
without leading zeros, `0` for zero. -/
def appendHex (i : Nat) : List Char :=
  if i = 0 then ['0']
  else
    ([7, 6, 5, 4, 3, 2, 1, 0].filter (fun j => i >>> (j * 4) > 0)).map
      (fun j => hexDigit ((i >>> (j * 4)) % 16))

/-- The function `hexString(b)`: two hexadecimal digits per byte. -/
def hexString (b : IP) : List Char :=
  b.flatMap (fun tn => [hexDigit (tn / 16 % 16), hexDigit (tn % 16)])

/-- The inner loop `for j < IPv6len && p[j] == 0 && p[j+1] == 0 { j += 2 }` of `IP.String`.
The first argument bounds the number of turns; `j` grows by 2 up to 16, so 8 turns suffice. -/
def zeroRunEnd (p : IP) : Nat → Nat → Nat
  | 0, j => j
  | fuel + 1, j =>
    if j < 16 ∧ p.getD j 0 = 0 ∧ p.getD (j + 1) 0 = 0 then zeroRunEnd p fuel (j + 2) else j

/-- The loop of `IP.String` that finds the longest run of zeros: returns `(e0, e1)`.  The first
argument bounds the number of turns; `i` grows by at least 2 up to 16, so 8 turns suffice. -/
def longestZeroRun (p : IP) : Nat → Nat → Int → Int → Int × Int
  | 0, _, e0, e1 => (e0, e1)
  | fuel + 1, i, e0, e1 =>
    if i < 16 then
      let j := zeroRunEnd p 8 i
      if j > i ∧ (j : Int) - i > e1 - e0 then longestZeroRun p fuel (j + 2) i j
      else longestZeroRun p fuel (i + 2) e0 e1
    else (e0, e1)

/-- The loop of `IP.String` that prints the groups, with `::` in place of the run of zeros.
The first natural number bounds the number of turns; 8 turns suffice, as above. -/
def printGroups (p : IP) (e0 e1 : Int) : Nat → Nat → List Char → List Char
  | 0, _, b => b
  | fuel + 1, i, b =>
    if i < 16 then
      if (i : Int) = e0 then
        let b1 := b ++ [':', ':']
        let i1 := e1.toNat
        if i1 ≥ 16 then b1
        else printGroups p e0 e1 fuel (i1 + 2)
          (b1 ++ appendHex (p.getD i1 0 * 256 + p.getD (i1 + 1) 0))
      else
        let b1 := if i > 0 then b ++ [':'] else b
        printGroups p e0 e1 fuel (i + 2) (b1 ++ appendHex (p.getD i 0 * 256 + p.getD (i + 1) 0))
    else b

/-- The method `IP.String`: `<nil>` for an address of length 0, dotted decimal for an address
that `To4` converts, the IPv6 text with the longest run of zero groups written `::` for any
other 16-byte address, and `?` followed by the hexadecimal bytes otherwise. -/
def ipString (ip : IP) : String :=
  if ip.length = 0 then "<nil>"
  else
    match To4 ip with
    | [a, b, c, d] => String.mk (ubtoa a ++ ['.'] ++ ubtoa b ++ ['.'] ++ ubtoa c ++ ['.'] ++ ubtoa d)
    | _ =>
      if ip.length ≠ 16 then String.mk ('?' :: hexString ip)
      else
        let e := longestZeroRun ip 9 0 (-1) (-1)
        let e' : Int × Int := if e.2 - e.1 ≤ 2 then (-1, -1) else e
        String.mk (printGroups ip e'.1 e'.2 9 0 [])

/-! ## `GetIPAddress` (`src/main.go`, lines 47-85) -/

/-- The lookups of the program over a world `ω`: `Get url` is `http.Get(url)` followed by
`ioutil.ReadAll` of the body.  The outer error is that of `http.Get`, the inner one that of
`ReadAll`. -/
structure Net (ω : Type) where
  Get : String → ω → Except GoError (Except GoError String) × ω

/-- What `GetIPAddress` returns, with the world after it and the URLs it requested, in order. -/
structure Resolved (ω : Type) where
  result : Except GoError (IP × IP)
  world : ω
  lookups : List String

/-- The second half of `GetIPAddress` (lines 67-84), reached with the IPv4 address `ipv4`. -/
def getIPv6 {ω : Type} (net : Net ω) (addrs : QueryAddress) (ipv4 : IP) (w : ω) :
    Resolved ω :=
  match net.Get addrs.IPv6 w with
  | (.error err, w1) => ⟨.error err, w1, [addrs.IPv6]⟩
  | (.ok (.error err), w1) => ⟨.error err, w1, [addrs.IPv6]⟩
  | (.ok (.ok v6resp), w1) =>
    match UnmarshalText v6resp with
    | .error err => ⟨.error err, w1, [addrs.IPv6]⟩
    | .ok ipv6 =>
      if To4 ipv6 ≠ [] then
        ⟨.error (.other "IPv6 request produced wrong output"), w1, [addrs.IPv6]⟩
      else ⟨.ok (ipv4, ipv6), w1, [addrs.IPv6]⟩

/-- The function `GetIPAddress(addrs)`: both lookups are made, whatever `addrs` holds. -/
def GetIPAddress {ω : Type} (net : Net ω) (addrs : QueryAddress) (w : ω) : Resolved ω :=
  match net.Get addrs.IPv4 w with
  | (.error err, w1) => ⟨.error err, w1, [addrs.IPv4]⟩
  | (.ok (.error err), w1) => ⟨.error err, w1, [addrs.IPv4]⟩
  | (.ok (.ok v4resp), w1) =>
    match UnmarshalText v4resp with
    | .error err => ⟨.error err, w1, [addrs.IPv4]⟩
    | .ok ipv4 =>
      if To4 ipv4 = [] then
        ⟨.error (.other "IPv4 request produced wrong output"), w1, [addrs.IPv4]⟩
      else
        let r := getIPv6 net addrs ipv4 w1
        ⟨r.result, r.world, addrs.IPv4 :: r.lookups⟩

/-! ## `main` (`src/main.go`, lines 160-244) -/

/-- The values of the command-line flags after `flag.Parse()` (lines 164-173). -/
structure Flags where
  interval : Int
  key : String
  zone : String
  domains : String
  ipv4 : String
  ipv6 : String
  replace : Bool
  simple : Bool
  config : String
  deriving DecidableEq

/-- The defaults of the flags (lines 164-172). -/
def Flags.defaults : Flags :=
  { interval := 300
    key := ""
    zone := "example.com"
    domains := "ddns.example.com,test.example.com"
    ipv4 := "https://ipv4bot.whatismyipaddress.com/"
    ipv6 := "https://ipv6bot.whatismyipaddress.com/"
    replace := false
    simple := false
    config := "/etc/ns1-ddns/config.toml" }

/-- The call `strings.Replace(s, " ", "", -1)` of line 192: every space is removed. -/
def removeSpaces (s : List Char) : List Char := s.filter (fun c => c != ' ')

/-- The call `strings.Split(s, ",")` of line 192, over the characters of `s`: the pieces
between the commas, one more than there are commas. -/
def Split : List Char → List (List Char)
  | [] => [[]]
  | c :: cs =>
    if c = ',' then [] :: Split cs
    else
      match Split cs with
      | p :: ps => (c :: p) :: ps
      | [] => [[c]]

/-- The status the program exits with: every `os.Exit` of `main` is `os.Exit(-1)`. -/
def exitStatus : Int := -1

/-- The status with which the Go run time ends a process that panics. -/
def panicStatus : Int := 2

/-- The simple mode of `main` (lines 177-201): the configuration built from the flags, or the
line printed before `os.Exit(-1)`.  (In the other mode, lines 203-213, the configuration is
decoded from a file; `bootstrap` and `cycle` below take the configuration as it comes.) -/
def simpleMode (f : Flags) : Except String Config :=
  if f.key = "" then
    .error "You need to specify an API key using the -k parameter in simple mode"
  else if f.zone = "example.com" then
    .error "You need to specify a zone using the -z parameter in simple mode"
  else if f.domains = "ddns.example.com,test.example.com" then
    .error ("You need to specify one or more comma-seperated domais using the -d parameter "
      ++ "in simple mode")
  else
    .ok
      { Basic := { Interval := f.interval, APIKey := f.key, Zone := f.zone }
        QueryAddresses := { IPv4 := f.ipv4, IPv6 := f.ipv6 }
        Domains := (Split (removeSpaces f.domains.toList)).map (fun domain =>
          { Name := String.mk domain
            IPv4 := f.ipv4 != ""
            IPv6 := f.ipv6 != ""
            Replace := f.replace }) }

/-- Everything `main` reaches outside the process, over a world `ω`: the lookups, the record
client and `client.Zones.Get`, which returns its error, if any. -/
structure Env (ω : Type) where
  net : Net ω
  client : Client ω
  ZonesGet : String → ω → Option GoError × ω

/-- One step of the daemon, as seen from outside. -/
inductive Action where
  | resolve (lookups : List String) (result : Except GoError (IP × IP))
  | zoneCheck (zone : String) (err : Option GoError)
  | pass (ipv4 ipv6 : String) (trace : List Event)
  | sleep (seconds : Int)
  | print (line : String)
  deriving DecidableEq

/-- Where the daemon is: before the first pass (lines 216-233), in the loop (lines 235-243), or
gone with an exit status (after `os.Exit`, or after a panic). -/
inductive Phase where
  | Bootstrap
  | SteadyState
  | Exited (status : Int)
  deriving DecidableEq

/-- The phase after a pass with the trace `trace`: the loop goes on, unless the pass panicked. -/
def phaseAfter (trace : List Event) : Phase :=
  if panicked (trace.map Event.op) then .Exited panicStatus else .SteadyState

/-- The state of the daemon: its phase, the world, and what it has done so far. -/
structure Daemon (ω : Type) where
  phase : Phase
  world : ω
  done : List Action

/-- Lines 216-233: the first resolution, the zone check and the first pass. -/
def bootstrap {ω : Type} (lower : Char → Char) (env : Env ω)
    (configuration : Config) (d : Daemon ω) : Daemon ω :=
  let r := GetIPAddress env.net configuration.QueryAddresses d.world
  match r.result with
  | .error err =>
    ⟨.Exited exitStatus, r.world, d.done ++ [.resolve r.lookups r.result,
      .print ("Failed to get IP address: " ++ err.Error ++ "\n")]⟩
  | .ok (v4, v6) =>
    match env.ZonesGet configuration.Basic.Zone r.world with
    | (some err, w1) =>
      ⟨.Exited exitStatus, w1, d.done ++ [.resolve r.lookups r.result,
        .zoneCheck configuration.Basic.Zone (some err),
        .print (if err = GoError.ErrZoneMissing then
            "Zone does not exist, please check your configuration\n"
          else "Failed to get zone info: " ++ err.Error ++ "\n")]⟩
    | (none, w1) =>
      let u := UpdateDomains lower configuration env.client (ipString v4) (ipString v6) w1
      ⟨phaseAfter u.2, u.1, d.done ++ [.resolve r.lookups r.result,
        .zoneCheck configuration.Basic.Zone none, .pass (ipString v4) (ipString v6) u.2]⟩

/-- Lines 236-242: one turn of the loop. -/
def cycle {ω : Type} (lower : Char → Char) (env : Env ω)
    (configuration : Config) (d : Daemon ω) : Daemon ω :=
  let r := GetIPAddress env.net configuration.QueryAddresses d.world
  match r.result with
  | .error err =>
    ⟨.SteadyState, r.world, d.done ++ [.sleep configuration.Basic.Interval,
      .resolve r.lookups r.result, .print ("Failed to get IP address: " ++ err.Error ++ "\n")]⟩
  | .ok (v4, v6) =>
    let u := UpdateDomains lower configuration env.client (ipString v4) (ipString v6) r.world
    ⟨phaseAfter u.2, u.1, d.done ++ [.sleep configuration.Basic.Interval,
      .resolve r.lookups r.result, .pass (ipString v4) (ipString v6) u.2]⟩

/-- The step of the daemon: `bootstrap` first, then `cycle` for ever; a process that has
exited does nothing more. -/
def step {ω : Type} (lower : Char → Char) (env : Env ω)
    (configuration : Config) (d : Daemon ω) : Daemon ω :=
  match d.phase with
  | .Bootstrap => bootstrap lower env configuration d
  | .SteadyState => cycle lower env configuration d
  | .Exited _ => d

/-- The daemon after `n` steps. -/
def run {ω : Type} (lower : Char → Char) (env : Env ω)
    (configuration : Config) : Nat → Daemon ω → Daemon ω
  | 0, d => d
  | n + 1, d => run lower env configuration n (step lower env configuration d)

/-- The reconciliation passes among the actions, with the addresses each was run with. -/
def passes : List Action → List (String × String)
  | [] => []
  | .pass ipv4 ipv6 _ :: rest => (ipv4, ipv6) :: passes rest
  | _ :: rest => passes rest

/-- The resolutions among the actions. -/
def resolutions : List Action → List (Except GoError (IP × IP))
  | [] => []
  | .resolve _ r :: rest => r :: resolutions rest
  | _ :: rest => resolutions rest

/-! ## Reading the trace -/

/-- A line printed, as opposed to a call of the client. -/
def Op.isPrint : Op → Bool
  | .print _ => true
  | _ => false

/-- A `Create` of a record of type `t`. -/
def Op.isCreate (t : String) : Op → Bool
  | .create r _ => r.RType == t
  | _ => false

/-- An `Update` of a record of type `t`. -/
def Op.isUpdate (t : String) : Op → Bool
  | .update r _ => r.RType == t
  | _ => false

/-- A `Delete` of any record. -/
def Op.isDelete : Op → Bool
  | .delete _ _ _ _ => true
  | _ => false

/-- The calls of the client among the actions (and the panic, if any): everything but the
printed lines. -/
def calls (ops : List Op) : List Op := ops.filter (fun o => !o.isPrint)

/-- The actions of the pass that happened while the loop processed the entry at position `i`. -/
def entryOps (trace : List Event) (i : Nat) : List Op :=
  (trace.filter (fun e => e.idx == i)).map Event.op

/-- The `Create` calls for type `t` made while the loop processed the entry at position `i`. -/
def creates (trace : List Event) (i : Nat) (t : String) : List Op :=
  (entryOps trace i).filter (Op.isCreate t)

/-- The `Update` calls for type `t` made while the loop processed the entry at position `i`. -/
def updates (trace : List Event) (i : Nat) (t : String) : List Op :=
  (entryOps trace i).filter (Op.isUpdate t)

/-- The `Delete` calls made while the loop processed the entry at position `i`. -/
def deletes (trace : List Event) (i : Nat) : List Op :=
  (entryOps trace i).filter Op.isDelete

/-- What follows a read with result `res`, as a function of the error of the write: a create
of `new` after `ErrRecordMissing`, an update of `new` under the ID read when the record read
differs, the panic when the comparison panics, nothing otherwise. -/
def expectedWrite (new : Record) (ip : String) : Except GoError Record →
    Option (Option GoError → Op)
  | .error .ErrRecordMissing => some (Op.create new)
  | .error _ => none
  | .ok record =>
    match differs record ip with
    | some true => some (Op.update { new with ID := record.ID })
    | some false => none
    | none => some (fun _ => Op.panic)

/-- The list of the action that follows, if there is one. -/
def optWrite (f : Option (Option GoError → Op)) (err : Option GoError) : List Op :=
  match f with
  | some g => [g err]
  | none => []

/-- The calls of one `syncRecord`, as a function of the results of the calls. -/
def syncCalls (lower : Char → Char) (zone name t ip : String) (res : Except GoError Record)
    (err : Option GoError) : List Op :=
  .get zone name t res :: optWrite (expectedWrite (desiredRecord lower zone name t ⟨[ip]⟩) ip res) err

/-- The actions `a` followed by the actions `b`, unless `a` ends in a panic. -/
def thenCalls (a b : List Op) : List Op := if panicked a then a else a ++ b

/-- The deletes of the loop body for one entry (lines 138-155), as a function of their
results. -/
def removeCalls (zone : String) (d : Domain) (e1 e2 e3 : Option GoError) : List Op :=
  if d.Replace then
    (if d.IPv4 then [] else [.delete zone d.Name "A" e1]) ++
    (if d.IPv6 then [] else [.delete zone d.Name "AAAA" e2]) ++
    [.delete zone d.Name "CNAME" e3]
  else []

/-- The calls of the loop body for one entry, as a function of the results of the calls. -/
def domainCalls (lower : Char → Char) (zone ipv4 ipv6 : String) (d : Domain)
    (resA : Except GoError Record) (errA : Option GoError) (resB : Except GoError Record)
    (errB e1 e2 e3 : Option GoError) : List Op :=
  thenCalls (if d.IPv4 then syncCalls lower zone d.Name "A" ipv4 resA errA else [])
    (thenCalls (if d.IPv6 then syncCalls lower zone d.Name "AAAA" ipv6 resB errB else [])
      (removeCalls zone d e1 e2 e3))

/-- A sub-operation of the loop body as it is attempted, whatever its outcome: the read of a
record or the removal of a record. -/
inductive Attempt where
  | read (zone name t : String)
  | remove (zone name t : String)
  deriving DecidableEq

/-- The sub-operation an action starts: a `Get` is a read, a `Delete` is a removal; creates and
updates follow a read and printed lines are not calls. -/
def Op.attempt : Op → Option Attempt
  | .get zone name t _ => some (.read zone name t)
  | .delete zone name t _ => some (.remove zone name t)
  | _ => none

/-- The sub-operations attempted in a pass, in order, each with the position of its entry. -/
def attempts (trace : List Event) : List (Nat × Attempt) :=
  trace.filterMap (fun e => e.op.attempt.map (fun a => (e.idx, a)))

/-- The sub-operations the flags of an entry enable: the read of A when IPv4 is set, the read
of AAAA when IPv6 is set and, when Replace is set, the removal of A if IPv4 is unset, of AAAA
if IPv6 is unset, and of CNAME. -/
def planned (zone : String) (d : Domain) : List Attempt :=
  (if d.IPv4 then [.read zone d.Name "A"] else []) ++
  (if d.IPv6 then [.read zone d.Name "AAAA"] else []) ++
  (if d.Replace then
    (if d.IPv4 then [] else [.remove zone d.Name "A"]) ++
    (if d.IPv6 then [] else [.remove zone d.Name "AAAA"]) ++
    [.remove zone d.Name "CNAME"]
   else [])

/-- The sub-operations enabled for the entries of a list, in list order, the first entry being
at position `i`. -/
def planFrom (zone : String) : Nat → List Domain → List (Nat × Attempt)
  | _, [] => []
  | i, d :: ds => (planned zone d).map (fun a => (i, a)) ++ planFrom zone (i + 1) ds

/-! ## Predicates of the statements -/

/-- The entry `d` asks for records of type `t`, to point at `ip`. -/
def Wants (d : Domain) (ipv4 ipv6 t ip : String) : Prop :=
  (t = "A" ∧ d.IPv4 = true ∧ ip = ipv4) ∨ (t = "AAAA" ∧ d.IPv6 = true ∧ ip = ipv6)

instance (d : Domain) (ipv4 ipv6 t ip : String) : Decidable (Wants d ipv4 ipv6 t ip) := by
  unfold Wants; infer_instance

/-- The store is settled for the entry `d`: each record type the entry wants is there with the
single answer and TTL 60, and, when Replace is set, the types it removes are absent. -/
def Settled (zone ipv4 ipv6 : String) (d : Domain) (s : Store) : Prop :=
  (d.IPv4 = true → ∃ r, s (zone, d.Name, "A") = some r ∧ differs r.val ipv4 = some false) ∧
  (d.IPv6 = true → ∃ r, s (zone, d.Name, "AAAA") = some r ∧ differs r.val ipv6 = some false) ∧
  (d.Replace = true → s (zone, d.Name, "CNAME") = none ∧
    (d.IPv4 = false → s (zone, d.Name, "A") = none) ∧
    (d.IPv6 = false → s (zone, d.Name, "AAAA") = none))

/-- An action that writes nothing new: a read that found a record, or a delete that found its
record already missing. -/
def Op.quiet : Op → Prop
  | .get _ _ _ (.ok _) => True
  | .delete _ _ _ (some .ErrRecordMissing) => True
  | _ => False

/-- The pass did not panic. -/
def Completed (trace : List Event) : Prop := ∀ e ∈ trace, e.op ≠ Op.panic

instance (trace : List Event) : Decidable (Completed trace) := by
  unfold Completed; infer_instance

/-- The text has no square bracket at either end, as is the case of every address that
`IP.String` prints. -/
def BracketFree (ip : String) : Prop :=
  ip.toList.head? ≠ some '[' ∧ ip.toList.head? ≠ some ']' ∧
  ip.toList.getLast? ≠ some '[' ∧ ip.toList.getLast? ≠ some ']'

instance (ip : String) : Decidable (BracketFree ip) := by
  unfold BracketFree; infer_instance

/-- Two entries of the same name do not undo each other: neither removes, under Replace, a
record type the other wants. -/
def Agree (d e : Domain) : Prop :=
  d.Name = e.Name →
    (e.Replace = true → (d.IPv4 = true → e.IPv4 = true) ∧ (d.IPv6 = true → e.IPv6 = true)) ∧
    (d.Replace = true → (e.IPv4 = true → d.IPv4 = true) ∧ (e.IPv6 = true → d.IPv6 = true))

/-! ## Concrete scenarios -/

/-- The configuration of the concrete scenarios: zone `example.com` and the given entries. -/
def scenario (domains : List Domain) : Config :=
  { Basic := { Interval := 300, APIKey := "key", Zone := "example.com" }
    QueryAddresses := { IPv4 := "https://ipv4bot.whatismyipaddress.com/",
                        IPv6 := "https://ipv6bot.whatismyipaddress.com/" }
    Domains := domains }

/-- The store of the drift scenario: the A record of `a.example.com` has the right address
`1.2.3.4` and the TTL 3600. -/
def driftStore : Store :=
  Function.update Store.empty ("example.com", "a.example.com", "A")
    (some ⟨⟨"id-17", "example.com", "a.example.com", "A", 3600, [some ⟨["1.2.3.4"]⟩]⟩,
      by decide⟩)

/-- The store of the second scenario of the specification: the A record of `a.example.com`
already has the answer `1.2.3.4` and the TTL 60. -/
def matchingStore : Store :=
  Function.update Store.empty ("example.com", "a.example.com", "A")
    (some ⟨⟨"id-17", "example.com", "a.example.com", "A", 60, [some ⟨["1.2.3.4"]⟩]⟩,
      by decide⟩)

/-- The store of the cleanup scenarios: `a.example.com` has an A record and a CNAME record. -/
def conflictStore : Store :=
  Function.update
    (Function.update Store.empty ("example.com", "a.example.com", "A")
      (some ⟨⟨"id-17", "example.com", "a.example.com", "A", 60, [some ⟨["9.9.9.9"]⟩]⟩,
        by decide⟩))
    ("example.com", "a.example.com", "CNAME")
    (some ⟨⟨"id-18", "example.com", "a.example.com", "CNAME", 300,
      [some ⟨["b.example.com"]⟩]⟩, by decide⟩)

/-- A record client whose every read returns a record with the TTL 3600 and one answer that is
the nil pointer (the body `{"answers":[null],"ttl":3600}`), and whose writes succeed. -/
def nullAnswerClient : Client Unit where
  Get zone name t w := (.ok ⟨"id-17", zone, name, t, 3600, [none]⟩, w)
  Create _ w := (none, w)
  Update _ w := (none, w)
  Delete _ _ _ w := (none, w)

/-- The configuration of the witness of C4: `a.example.com` is listed twice, the entries agree,
and one of them has Replace set. -/
def agreeing : Config :=
  scenario [⟨"a.example.com", true, false, true⟩, ⟨"b.example.com", true, true, false⟩,
    ⟨"a.example.com", true, false, false⟩]

/-- A network for the concrete scenarios: each URL of the table answers as the table says, any
other URL fails. -/
def tableNet {ω : Type} (table : List (String × Except GoError (Except GoError String))) :
    Net ω where
  Get url w :=
    (match table.lookup url with
      | some r => r
      | none => .error (.other "no such host"), w)

/-- The two endpoints of the concrete scenarios. -/
def endpoints : QueryAddress :=
  { IPv4 := "https://ipv4bot.whatismyipaddress.com/"
    IPv6 := "https://ipv6bot.whatismyipaddress.com/" }

/-- An environment in which every lookup fails; the records are in the store on which every
call takes effect and the zone exists. -/
def failingEnv : Env Store :=
  { net := tableNet []
    client := faithful
    ZonesGet := fun _ w => (none, w) }

/-- An environment in which the endpoints answer `1.2.3.4` and `2001:db8::1`. -/
def answeringEnv : Env Store :=
  { net := tableNet [(endpoints.IPv4, .ok (.ok "1.2.3.4")),
      (endpoints.IPv6, .ok (.ok "2001:db8::1"))]
    client := faithful
    ZonesGet := fun _ w => (none, w) }

/-- The configuration of the daemon scenarios: `a.example.com` with both address families. -/
def daemonConfig : Config := scenario [⟨"a.example.com", true, true, false⟩]

/-- The flags of the witness of C10. -/
def homeFlags : Flags :=
  { Flags.defaults with
    simple := true, key := "secret", zone := "home.example.org",
    domains := "a.home.example.org, b.home.example.org", replace := true }

/-! ## The shape of the trace -/

theorem calls_append (a b : List Op) : calls (a ++ b) = calls a ++ calls b := by
  simp [calls]

theorem calls_nil : calls [] = [] := rfl

theorem panicked_nil : panicked [] = false := rfl

theorem panicked_append (a b : List Op) : panicked (a ++ b) = (panicked a || panicked b) := by
  simp [panicked, List.contains_eq_any_beq]

theorem panicked_calls (ops : List Op) : panicked (calls ops) = panicked ops := by
  induction ops with
  | nil => rfl
  | cons o ops ih =>
    cases o <;> simp_all [panicked, calls, Op.isPrint, List.filter_cons]

theorem panicked_eq_false_iff (ops : List Op) : panicked ops = false ↔ Op.panic ∉ ops := by
  simp [panicked]

theorem thenCalls_of_not_panicked (a b : List Op) (h : panicked a = false) :
    thenCalls a b = a ++ b := by
  simp [thenCalls, h]

theorem syncRecord_calls {σ : Type} (lower : Char → Char) (client : Client σ)
    (zone name t ip : String) (w : σ) :
    ∃ res err, calls (syncRecord lower client zone name t ip ⟨[ip]⟩ w).2
      = syncCalls lower zone name t ip res err := by
  unfold syncRecord
  rcases hg : client.Get zone name t w with ⟨res, w1⟩
  cases res with
  | error e =>
    by_cases he : e = GoError.ErrRecordMissing
    · subst he
      rcases hc : client.Create (desiredRecord lower zone name t ⟨[ip]⟩) w1 with ⟨err, w2⟩
      cases err with
      | none => exact ⟨.error .ErrRecordMissing, none, by simp [hc, calls, syncCalls, expectedWrite, optWrite, Op.isPrint]⟩
      | some e2 => exact ⟨.error .ErrRecordMissing, some e2, by simp [hc, calls, syncCalls, expectedWrite, optWrite, Op.isPrint]⟩
    · refine ⟨.error e, none, ?_⟩
      cases e <;> simp_all [calls, syncCalls, expectedWrite, optWrite, Op.isPrint]
  | ok record =>
    rcases hdiff : differs record ip with _ | b
    · exact ⟨.ok record, none, by simp [hdiff, calls, syncCalls, expectedWrite, optWrite, Op.isPrint]⟩
    · cases b
      · exact ⟨.ok record, none, by simp [hdiff, calls, syncCalls, expectedWrite, optWrite, Op.isPrint]⟩
      · rcases hc : client.Update { desiredRecord lower zone name t ⟨[ip]⟩ with ID := record.ID } w1
          with ⟨err, w2⟩
        cases err with
        | none => exact ⟨.ok record, none, by simp [hc, hdiff, calls, syncCalls, expectedWrite, optWrite, Op.isPrint]⟩
        | some e2 => exact ⟨.ok record, some e2, by simp [hc, hdiff, calls, syncCalls, expectedWrite, optWrite, Op.isPrint]⟩

theorem removeRecord_calls {σ : Type} (client : Client σ) (zone name t : String) (w : σ) :
    ∃ e, calls (removeRecord client zone name t w).2 = [.delete zone name t e] := by
  unfold removeRecord
  rcases hd : client.Delete zone name t w with ⟨err, w1⟩
  cases err with
  | none => exact ⟨none, by simp [calls, Op.isPrint]⟩
  | some e =>
    refine ⟨some e, ?_⟩
    by_cases he : e = GoError.ErrRecordMissing <;> simp [he, calls, Op.isPrint]

theorem removeRecord_panicked {σ : Type} (client : Client σ) (zone name t : String) (w : σ) :
    panicked (removeRecord client zone name t w).2 = false := by
  obtain ⟨e, he⟩ := removeRecord_calls client zone name t w
  rw [← panicked_calls, he]
  rfl

theorem andThen_apply {σ : Type} (f g : σ → σ × List Op) (w : σ) :
    andThen f g w = if panicked (f w).2 then f w
      else ((g (f w).1).1, (f w).2 ++ (g (f w).1).2) := rfl

theorem calls_andThen {σ : Type} (f g : σ → σ × List Op) (w : σ) :
    calls (andThen f g w).2 = thenCalls (calls (f w).2) (calls (g (f w).1).2) := by
  rw [andThen_apply, thenCalls, panicked_calls]
  split <;> simp [calls_append]

theorem calls_whenB {σ : Type} (b : Bool) (f : σ → σ × List Op) (w : σ) :
    calls (whenB b f w).2 = if b then calls (f w).2 else [] := by
  cases b <;> simp [whenB, calls_nil]

theorem removeBlock_calls {σ : Type} (client : Client σ) (zone : String) (d : Domain) (w : σ) :
    ∃ e1 e2 e3,
      calls (whenB d.Replace
        (andThen (whenB (!d.IPv4) (removeRecord client zone d.Name "A"))
          (andThen (whenB (!d.IPv6) (removeRecord client zone d.Name "AAAA"))
            (removeRecord client zone d.Name "CNAME"))) w).2
        = removeCalls zone d e1 e2 e3 := by
  rcases d with ⟨name, v4, v6, repl⟩
  obtain ⟨e1, h1⟩ := removeRecord_calls client zone name "A" w
  obtain ⟨e2, h2⟩ := removeRecord_calls client zone name "AAAA"
    (if v4 then w else (removeRecord client zone name "A" w).1)
  obtain ⟨e3, h3⟩ := removeRecord_calls client zone name "CNAME"
    (if v6 then (if v4 then w else (removeRecord client zone name "A" w).1)
      else (removeRecord client zone name "AAAA"
        (if v4 then w else (removeRecord client zone name "A" w).1)).1)
  have p1 := removeRecord_panicked client zone name "A"
  have p2 := removeRecord_panicked client zone name "AAAA"
  refine ⟨e1, e2, e3, ?_⟩
  cases v4 <;> cases v6 <;> cases repl <;>
    simp_all [calls_whenB, calls_andThen, whenB, thenCalls, calls_nil, panicked_nil, panicked,
      removeCalls]

theorem updateDomain_calls {σ : Type} (lower : Char → Char) (client : Client σ)
    (zone ipv4 ipv6 : String) (d : Domain) (w : σ) :
    ∃ resA errA resB errB e1 e2 e3,
      calls (updateDomain lower client zone ipv4 ipv6 d w).2
        = domainCalls lower zone ipv4 ipv6 d resA errA resB errB e1 e2 e3 := by
  obtain ⟨resA, errA, hA⟩ := syncRecord_calls lower client zone d.Name "A" ipv4 w
  obtain ⟨resB, errB, hB⟩ := syncRecord_calls lower client zone d.Name "AAAA" ipv6
    (whenB d.IPv4 (syncRecord lower client zone d.Name "A" ipv4 ⟨[ipv4]⟩) w).1
  obtain ⟨e1, e2, e3, hD⟩ := removeBlock_calls client zone d
    (whenB d.IPv6 (syncRecord lower client zone d.Name "AAAA" ipv6 ⟨[ipv6]⟩)
      (whenB d.IPv4 (syncRecord lower client zone d.Name "A" ipv4 ⟨[ipv4]⟩) w).1).1
  refine ⟨resA, errA, resB, errB, e1, e2, e3, ?_⟩
  simp only [updateDomain, calls_andThen, NewAv4Answer, NewAv6Answer, hD, calls_whenB, hA, hB]
  rfl

theorem updateLoop_idx_ge {σ : Type} (lower : Char → Char) (client : Client σ)
    (zone ipv4 ipv6 : String) (ds : List Domain) :
    ∀ (k : Nat) (w : σ) (e : Event),
      e ∈ (updateLoop lower client zone ipv4 ipv6 ds k w).2 → k ≤ e.idx := by
  induction ds with
  | nil => intro k w e he; simp [updateLoop] at he
  | cons d ds ih =>
    intro k w e he
    simp only [updateLoop] at he
    split at he
    · simp only [List.mem_map] at he
      obtain ⟨o, _, rfl⟩ := he
      exact le_refl _
    · simp only [List.mem_append, List.mem_map] at he
      rcases he with ⟨o, _, rfl⟩ | he
      · exact le_refl _
      · exact Nat.le_of_succ_le (ih _ _ _ he)

theorem entryOps_map_self (ops : List Op) (k : Nat) :
    entryOps (ops.map (Event.mk k)) k = ops := by
  simp [entryOps, List.filter_map, Function.comp_def]

theorem entryOps_map_other (ops : List Op) (k i : Nat) (h : k ≠ i) :
    entryOps (ops.map (Event.mk k)) i = [] := by
  simp [entryOps, List.filter_map, Function.comp_def, h]

theorem entryOps_append (a b : List Event) (i : Nat) :
    entryOps (a ++ b) i = entryOps a i ++ entryOps b i := by
  simp [entryOps]

theorem Completed_iff (trace : List Event) :
    Completed trace ↔ panicked (trace.map Event.op) = false := by
  simp [Completed, panicked]

theorem updateLoop_entry {σ : Type} (lower : Char → Char) (client : Client σ)
    (zone ipv4 ipv6 : String) (ds : List Domain) :
    ∀ (k : Nat) (w : σ) (j : Nat) (d : Domain), ds[j]? = some d →
      (entryOps (updateLoop lower client zone ipv4 ipv6 ds k w).2 (k + j) = [] ∧
        ¬ Completed (updateLoop lower client zone ipv4 ipv6 ds k w).2) ∨
      ∃ w1, entryOps (updateLoop lower client zone ipv4 ipv6 ds k w).2 (k + j)
        = (updateDomain lower client zone ipv4 ipv6 d w1).2 := by
  induction ds with
  | nil => intro k w j d h; simp at h
  | cons d0 ds ih =>
    intro k w j d h
    by_cases hp : panicked (updateDomain lower client zone ipv4 ipv6 d0 w).2 = true
    · have htr : (updateLoop lower client zone ipv4 ipv6 (d0 :: ds) k w).2
          = (updateDomain lower client zone ipv4 ipv6 d0 w).2.map (Event.mk k) := by
        simp [updateLoop, hp]
      rw [htr]
      cases j with
      | zero =>
        simp only [List.getElem?_cons_zero, Option.some.injEq] at h
        subst h
        exact Or.inr ⟨w, entryOps_map_self _ _⟩
      | succ j =>
        refine Or.inl ⟨entryOps_map_other _ _ _ (by omega), ?_⟩
        rw [Completed_iff]
        simp [Function.comp_def, hp]
    · have hp' : panicked (updateDomain lower client zone ipv4 ipv6 d0 w).2 = false := by
        simpa using hp
      have htr : (updateLoop lower client zone ipv4 ipv6 (d0 :: ds) k w).2
          = (updateDomain lower client zone ipv4 ipv6 d0 w).2.map (Event.mk k)
            ++ (updateLoop lower client zone ipv4 ipv6 ds (k + 1)
                (updateDomain lower client zone ipv4 ipv6 d0 w).1).2 := by
        simp [updateLoop, hp']
      rw [htr]
      cases j with
      | zero =>
        simp only [List.getElem?_cons_zero, Option.some.injEq] at h
        subst h
        refine Or.inr ⟨w, ?_⟩
        have h2 : entryOps (updateLoop lower client zone ipv4 ipv6 ds (k + 1)
            (updateDomain lower client zone ipv4 ipv6 d0 w).1).2 k = [] := by
          simp only [entryOps, List.map_eq_nil_iff, List.filter_eq_nil_iff]
          intro e he
          have hge := updateLoop_idx_ge lower client zone ipv4 ipv6 ds _ _ e he
          simp; omega
        simp only [Nat.add_zero]
        rw [entryOps_append, entryOps_map_self, h2, List.append_nil]
      | succ j =>
        simp only [List.getElem?_cons_succ] at h
        have hidx : k + (j + 1) = k + 1 + j := by omega
        rw [hidx, entryOps_append, entryOps_map_other _ _ _ (by omega), List.nil_append]
        rcases ih (k + 1) (updateDomain lower client zone ipv4 ipv6 d0 w).1 j d h with
          ⟨h1, h2⟩ | ⟨w1, hw1⟩
        · refine Or.inl ⟨h1, ?_⟩
          intro hc
          apply h2
          intro e he
          exact hc e (List.mem_append_right _ he)
        · exact Or.inr ⟨w1, hw1⟩

theorem entry_calls {σ : Type} (lower : Char → Char) (configuration : Config)
    (client : Client σ) (ipv4 ipv6 : String) (w : σ) (i : Nat) (d : Domain)
    (hd : configuration.Domains[i]? = some d)
    (hreached : entryOps (UpdateDomains lower configuration client ipv4 ipv6 w).2 i ≠ [] ∨
      Completed (UpdateDomains lower configuration client ipv4 ipv6 w).2) :
    ∃ resA errA resB errB e1 e2 e3,
      calls (entryOps (UpdateDomains lower configuration client ipv4 ipv6 w).2 i)
        = domainCalls lower configuration.Basic.Zone ipv4 ipv6 d resA errA resB errB e1 e2 e3 := by
  have h := updateLoop_entry lower client configuration.Basic.Zone ipv4 ipv6
    configuration.Domains 0 w i d hd
  simp only [Nat.zero_add] at h
  rcases h with ⟨h1, h2⟩ | ⟨w1, hw1⟩
  · rcases hreached with hr | hr
    · exact absurd h1 hr
    · exact absurd hr h2
  · simp only [UpdateDomains, hw1]
    exact updateDomain_calls lower client configuration.Basic.Zone ipv4 ipv6 d w1

theorem filter_calls (p : Op → Bool) (hp : ∀ line, p (.print line) = false) (ops : List Op) :
    (calls ops).filter p = ops.filter p := by
  induction ops with
  | nil => rfl
  | cons o ops ih =>
    cases o <;> simp_all [calls, Op.isPrint, List.filter_cons]

theorem mem_calls_of_mem (o : Op) (ops : List Op) (ho : o.isPrint = false) (h : o ∈ ops) :
    o ∈ calls ops := by
  simp [calls, h, ho]

theorem mem_entryOps (trace : List Event) (i : Nat) (o : Op) (h : (⟨i, o⟩ : Event) ∈ trace) :
    o ∈ entryOps trace i := by
  simp only [entryOps, List.mem_map, List.mem_filter]
  exact ⟨⟨i, o⟩, ⟨h, by simp⟩, rfl⟩

theorem syncCalls_creates (lower : Char → Char) (zone name t q ip : String)
    (res : Except GoError Record) (err : Option GoError) :
    (syncCalls lower zone name t ip res err).filter (Op.isCreate q)
      = if t = q ∧ res = .error .ErrRecordMissing then
          [.create (desiredRecord lower zone name t ⟨[ip]⟩) err]
        else [] := by
  rcases res with e | r
  · cases e <;> by_cases h : t = q <;>
      simp [syncCalls, optWrite, expectedWrite, Op.isCreate, desiredRecord, Record.AddAnswer, h]
  · rcases hd : differs r ip with _ | b
    · simp [syncCalls, optWrite, expectedWrite, Op.isCreate, hd]
    · cases b <;> simp [syncCalls, optWrite, expectedWrite, Op.isCreate, hd]

theorem syncCalls_updates (lower : Char → Char) (zone name t q ip : String)
    (res : Except GoError Record) (err : Option GoError) :
    (syncCalls lower zone name t ip res err).filter (Op.isUpdate q)
      = match res with
        | .ok r =>
          if t = q ∧ differs r ip = some true then
            [.update { desiredRecord lower zone name t ⟨[ip]⟩ with ID := r.ID } err]
          else []
        | .error _ => [] := by
  rcases res with e | r
  · cases e <;> simp [syncCalls, optWrite, expectedWrite, Op.isUpdate]
  · rcases hd : differs r ip with _ | b
    · simp [syncCalls, optWrite, expectedWrite, Op.isUpdate, hd]
    · cases b <;> by_cases h : t = q <;>
        simp [syncCalls, optWrite, expectedWrite, Op.isUpdate, desiredRecord, Record.AddAnswer,
          hd, h]

theorem mem_syncCalls_get (lower : Char → Char) (zone name t z n q ip : String)
    (res r2 : Except GoError Record) (err : Option GoError) :
    Op.get z n q r2 ∈ syncCalls lower zone name t ip res err
      ↔ z = zone ∧ n = name ∧ q = t ∧ r2 = res := by
  rcases res with e | r
  · cases e <;> simp [syncCalls, optWrite, expectedWrite]
  · rcases hd : differs r ip with _ | b
    · simp [syncCalls, optWrite, expectedWrite, hd]
    · cases b <;> simp [syncCalls, optWrite, expectedWrite, hd]

theorem filter_thenCalls_left (p : Op → Bool) (a b : List Op) (hb : b.filter p = []) :
    (thenCalls a b).filter p = a.filter p := by
  unfold thenCalls
  split <;> simp [hb]

theorem filter_thenCalls_right (p : Op → Bool) (a b : List Op) (ha : a.filter p = []) :
    (thenCalls a b).filter p = if panicked a then [] else b.filter p := by
  unfold thenCalls
  split <;> simp [ha]

theorem mem_thenCalls (o : Op) (a b : List Op) :
    o ∈ thenCalls a b ↔ o ∈ a ∨ (panicked a = false ∧ o ∈ b) := by
  unfold thenCalls
  by_cases h : panicked a = true <;> simp [h]

theorem removeCalls_creates (zone : String) (d : Domain) (e1 e2 e3 : Option GoError)
    (q : String) : (removeCalls zone d e1 e2 e3).filter (Op.isCreate q) = [] := by
  rcases d with ⟨name, v4, v6, repl⟩
  cases v4 <;> cases v6 <;> cases repl <;> simp [removeCalls, Op.isCreate]

theorem removeCalls_updates (zone : String) (d : Domain) (e1 e2 e3 : Option GoError)
    (q : String) : (removeCalls zone d e1 e2 e3).filter (Op.isUpdate q) = [] := by
  rcases d with ⟨name, v4, v6, repl⟩
  cases v4 <;> cases v6 <;> cases repl <;> simp [removeCalls, Op.isUpdate]

theorem removeCalls_no_get (zone : String) (d : Domain) (e1 e2 e3 : Option GoError)
    (z n q : String) (r : Except GoError Record) :
    Op.get z n q r ∉ removeCalls zone d e1 e2 e3 := by
  rcases d with ⟨name, v4, v6, repl⟩
  cases v4 <;> cases v6 <;> cases repl <;> simp [removeCalls]

theorem removeCalls_panicked (zone : String) (d : Domain) (e1 e2 e3 : Option GoError) :
    panicked (removeCalls zone d e1 e2 e3) = false := by
  rcases d with ⟨name, v4, v6, repl⟩
  cases v4 <;> cases v6 <;> cases repl <;> simp [removeCalls, panicked]

theorem entry_sync {σ : Type} (lower : Char → Char) (configuration : Config)
    (client : Client σ) (ipv4 ipv6 : String) (w : σ) (i : Nat) (d : Domain) (t ip : String)
    (res : Except GoError Record)
    (hd : configuration.Domains[i]? = some d) (ht : Wants d ipv4 ipv6 t ip)
    (hres : (⟨i, .get configuration.Basic.Zone d.Name t res⟩ : Event)
      ∈ (UpdateDomains lower configuration client ipv4 ipv6 w).2) :
    ∃ err,
      creates (UpdateDomains lower configuration client ipv4 ipv6 w).2 i t
        = (if res = .error .ErrRecordMissing then
            [.create (desiredRecord lower configuration.Basic.Zone d.Name t ⟨[ip]⟩) err]
          else []) ∧
      updates (UpdateDomains lower configuration client ipv4 ipv6 w).2 i t
        = (match res with
          | .ok r =>
            if differs r ip = some true then
              [.update { desiredRecord lower configuration.Basic.Zone d.Name t ⟨[ip]⟩ with
                ID := r.ID } err]
            else []
          | .error _ => []) := by
  obtain ⟨resA, errA, resB, errB, e1, e2, e3, hc⟩ :=
    entry_calls lower configuration client ipv4 ipv6 w i d hd
      (Or.inl (List.ne_nil_of_mem (mem_entryOps _ _ _ hres)))
  have hmem := mem_calls_of_mem (.get configuration.Basic.Zone d.Name t res) _ rfl
    (mem_entryOps _ _ _ hres)
  rw [hc] at hmem
  have hcr : creates (UpdateDomains lower configuration client ipv4 ipv6 w).2 i t
      = (domainCalls lower configuration.Basic.Zone ipv4 ipv6 d resA errA resB errB e1 e2
          e3).filter (Op.isCreate t) := by
    rw [← hc, filter_calls _ (fun _ => rfl)]; rfl
  have hup : updates (UpdateDomains lower configuration client ipv4 ipv6 w).2 i t
      = (domainCalls lower configuration.Basic.Zone ipv4 ipv6 d resA errA resB errB e1 e2
          e3).filter (Op.isUpdate t) := by
    rw [← hc, filter_calls _ (fun _ => rfl)]; rfl
  rw [hcr, hup]
  rcases ht with ⟨rfl, h4, rfl⟩ | ⟨rfl, h6, rfl⟩
  · simp only [domainCalls, h4, if_true] at hmem ⊢
    have hB1 : (if d.IPv6 = true then
        syncCalls lower configuration.Basic.Zone d.Name "AAAA" ipv6 resB errB
        else []).filter (Op.isCreate "A") = [] := by
      split <;> simp [syncCalls_creates]
    have hB2 : (if d.IPv6 = true then
        syncCalls lower configuration.Basic.Zone d.Name "AAAA" ipv6 resB errB
        else []).filter (Op.isUpdate "A") = [] := by
      split
      · rw [syncCalls_updates]; cases resB <;> simp
      · simp
    have hB3 : Op.get configuration.Basic.Zone d.Name "A" res ∉ (if d.IPv6 = true then
        syncCalls lower configuration.Basic.Zone d.Name "AAAA" ipv6 resB errB else []) := by
      split <;> simp [mem_syncCalls_get]
    have hres2 : res = resA := by
      rw [mem_thenCalls, mem_thenCalls, mem_syncCalls_get] at hmem
      rcases hmem with h | ⟨_, h | ⟨_, h⟩⟩
      · exact h.2.2.2
      · exact absurd h hB3
      · exact absurd h (removeCalls_no_get _ _ _ _ _ _ _ _ _)
    subst hres2
    refine ⟨errA, ?_, ?_⟩
    · rw [filter_thenCalls_left _ _ _
        (by rw [filter_thenCalls_left _ _ _ (removeCalls_creates _ _ _ _ _ _), hB1]),
        syncCalls_creates]
      simp
    · rw [filter_thenCalls_left _ _ _
        (by rw [filter_thenCalls_left _ _ _ (removeCalls_updates _ _ _ _ _ _), hB2]),
        syncCalls_updates]
      cases res <;> simp
  · simp only [domainCalls, h6, if_true] at hmem ⊢
    have hA1 : (if d.IPv4 = true then
        syncCalls lower configuration.Basic.Zone d.Name "A" ipv4 resA errA
        else []).filter (Op.isCreate "AAAA") = [] := by
      split <;> simp [syncCalls_creates]
    have hA2 : (if d.IPv4 = true then
        syncCalls lower configuration.Basic.Zone d.Name "A" ipv4 resA errA
        else []).filter (Op.isUpdate "AAAA") = [] := by
      split
      · rw [syncCalls_updates]; cases resA <;> simp
      · simp
    have hA3 : Op.get configuration.Basic.Zone d.Name "AAAA" res ∉ (if d.IPv4 = true then
        syncCalls lower configuration.Basic.Zone d.Name "A" ipv4 resA errA else []) := by
      split <;> simp [mem_syncCalls_get]
    rw [mem_thenCalls, mem_thenCalls, mem_syncCalls_get] at hmem
    rcases hmem with h | ⟨hnp, h | ⟨_, h⟩⟩
    · exact absurd h hA3
    · obtain ⟨_, _, _, rfl⟩ := h
      refine ⟨errB, ?_, ?_⟩
      · rw [filter_thenCalls_right _ _ _ hA1, hnp,
          filter_thenCalls_left _ _ _ (removeCalls_creates _ _ _ _ _ _), syncCalls_creates]
        simp
      · rw [filter_thenCalls_right _ _ _ hA2, hnp,
          filter_thenCalls_left _ _ _ (removeCalls_updates _ _ _ _ _ _), syncCalls_updates]
        cases res <;> simp
    · exact absurd h (removeCalls_no_get _ _ _ _ _ _ _ _ _)

theorem differs_true_iff (r : Record) (ip : String) :
    differs r ip = some true ↔
      (r.Answers ≠ [none] ∧
        (r.Answers.length ≠ 1 ∨ (∃ a, r.Answers = [some a] ∧ a.String ≠ ip) ∨ r.TTL ≠ 60)) := by
  unfold differs
  rcases hA : r.Answers with _ | ⟨a, _ | ⟨b, rest⟩⟩
  · simp
  · cases a <;> simp
  · simp

theorem differs_false_iff (r : Record) (ip : String) :
    differs r ip = some false ↔ ∃ a, r.Answers = [some a] ∧ a.String = ip ∧ r.TTL = 60 := by
  unfold differs
  rcases hA : r.Answers with _ | ⟨a, _ | ⟨b, rest⟩⟩
  · simp
  · cases a <;> simp
  · simp

theorem differs_none_iff (r : Record) (ip : String) :
    differs r ip = none ↔ r.Answers = [none] := by
  unfold differs
  rcases hA : r.Answers with _ | ⟨a, _ | ⟨b, rest⟩⟩
  · simp
  · cases a <;> simp
  · simp

theorem Trim_brackets (l : List Char)
    (h1 : l.head? ≠ some '[') (h2 : l.head? ≠ some ']')
    (h3 : l.getLast? ≠ some '[') (h4 : l.getLast? ≠ some ']') :
    Trim ('[' :: l ++ [']']) ['[', ']'] = l := by
  have hd : ∀ m : List Char, m.head? ≠ some '[' → m.head? ≠ some ']' →
      m.dropWhile (fun c => ['[', ']'].contains c) = m := by
    intro m g1 g2
    rcases m with _ | ⟨c, m⟩
    · rfl
    · have hc1 : c ≠ '[' := fun h => g1 (by simp [h])
      have hc2 : c ≠ ']' := fun h => g2 (by simp [h])
      simp [List.dropWhile_cons, hc1, hc2]
  unfold Trim
  rcases l with _ | ⟨c, l⟩
  · simp [List.dropWhile_cons]
  · have hc1 : c ≠ '[' := fun h => h1 (by simp [h])
    have hc2 : c ≠ ']' := fun h => h2 (by simp [h])
    have h5 : (c :: l).reverse.head? ≠ some '[' := by rwa [List.head?_reverse]
    have h6 : (c :: l).reverse.head? ≠ some ']' := by rwa [List.head?_reverse]
    have e1 : ('[' :: (c :: l) ++ [']']).dropWhile (fun c => ['[', ']'].contains c)
        = (c :: l) ++ [']'] := by
      simp [List.dropWhile_cons, hc1, hc2]
    rw [e1, List.reverse_append]
    have e2 : ([']'].reverse ++ (c :: l).reverse).dropWhile (fun c => ['[', ']'].contains c)
        = (c :: l).reverse := by
      have := hd (c :: l).reverse h5 h6
      simpa [List.dropWhile_cons] using this
    rw [e2, List.reverse_reverse]

theorem answer_string_single (ip : String) (h : BracketFree ip) :
    (⟨[ip]⟩ : Answer).String = ip := by
  obtain ⟨h1, h2, h3, h4⟩ := h
  have hs : Sprint [ip] = '[' :: ip.toList ++ [']'] := by
    simp [Sprint, String.intercalate, String.intercalate.go]
  simp only [Answer.String, hs]
  rw [Trim_brackets _ h1 h2 h3 h4]
  rfl

/-! ## The reconciliation pass: creating, correcting, leaving alone -/

/-- C1 (amended): if the entry at position `i` wants records of type `t` (A with IPv4 set, AAAA
with IPv6 set) and the read of `(zone, name, t)` made for it answers `ErrRecordMissing`, the pass
issues exactly one create for that entry and type and no update; the record created has the
configured zone, type `t`, TTL 60 and the single answer `ip`, and it is named as
`dns.NewRecord` names it: the entry's name when that name ends with the zone, otherwise the
name followed by a dot and the zone. -/
theorem convergence_creates_missing_record {σ : Type} (lower : Char → Char)
    (configuration : Config) (client : Client σ) (ipv4 ipv6 : String) (w : σ) (i : Nat)
    (d : Domain) (t ip : String)
    (hd : configuration.Domains[i]? = some d) (ht : Wants d ipv4 ipv6 t ip)
    (hmiss : (⟨i, .get configuration.Basic.Zone d.Name t (.error .ErrRecordMissing)⟩ : Event)
      ∈ (UpdateDomains lower configuration client ipv4 ipv6 w).2) :
    ∃ err,
      creates (UpdateDomains lower configuration client ipv4 ipv6 w).2 i t
        = [.create
            { ID := ""
              Zone := configuration.Basic.Zone
              Domain := if hasZoneSuffix lower d.Name configuration.Basic.Zone then d.Name
                else d.Name ++ "." ++ configuration.Basic.Zone
              RType := t
              TTL := 60
              Answers := [some ⟨[ip]⟩] } err] ∧
      updates (UpdateDomains lower configuration client ipv4 ipv6 w).2 i t = [] := by
  obtain ⟨err, h1, h2⟩ :=
    entry_sync lower configuration client ipv4 ipv6 w i d t ip _ hd ht hmiss
  refine ⟨err, ?_, ?_⟩
  · rw [h1]; simp [desiredRecord, NewRecord, Record.AddAnswer]
  · rw [h2]

/-- Witness of C1 (the scenario of the specification): the one entry `a.example.com` with
IPv4 set, an empty store and the address `1.2.3.4`; the whole trace is the read and one create
of the A record with TTL 60 and the answer `1.2.3.4`, and nothing for AAAA or CNAME. -/
theorem convergence_creates_missing_record_witness :
    (UpdateDomains Char.toLower (scenario [⟨"a.example.com", true, false, false⟩]) faithful
        "1.2.3.4" "<nil>" Store.empty).2
      = [⟨0, .get "example.com" "a.example.com" "A" (.error .ErrRecordMissing)⟩,
         ⟨0, .create ⟨"", "example.com", "a.example.com", "A", 60, [some ⟨["1.2.3.4"]⟩]⟩ none⟩] ∧
    ∃ err,
      creates (UpdateDomains Char.toLower (scenario [⟨"a.example.com", true, false, false⟩])
          faithful "1.2.3.4" "<nil>" Store.empty).2 0 "A"
        = [.create
            { ID := ""
              Zone := "example.com"
              Domain := if hasZoneSuffix Char.toLower "a.example.com" "example.com" then
                "a.example.com" else "a.example.com" ++ "." ++ "example.com"
              RType := "A"
              TTL := 60
              Answers := [some ⟨["1.2.3.4"]⟩] } err] ∧
      updates (UpdateDomains Char.toLower (scenario [⟨"a.example.com", true, false, false⟩])
          faithful "1.2.3.4" "<nil>" Store.empty).2 0 "A" = [] :=
  ⟨by decide,
   convergence_creates_missing_record Char.toLower
    (scenario [⟨"a.example.com", true, false, false⟩]) faithful "1.2.3.4" "<nil>" Store.empty 0
    ⟨"a.example.com", true, false, false⟩ "A" "1.2.3.4" (by decide) (by decide) (by decide)⟩

/-- Counterexample to C1 as stated: for the entry `www` in the zone `example.com`, with an
empty store, the read of `(example.com, www, A)` answers `ErrRecordMissing` and the one record
created is named `www.example.com`, not `www`. -/
theorem convergence_name_counterexample :
    (⟨0, .get "example.com" "www" "A" (.error .ErrRecordMissing)⟩ : Event)
      ∈ (UpdateDomains Char.toLower (scenario [⟨"www", true, false, false⟩]) faithful
          "1.2.3.4" "<nil>" Store.empty).2 ∧
    creates (UpdateDomains Char.toLower (scenario [⟨"www", true, false, false⟩]) faithful
        "1.2.3.4" "<nil>" Store.empty).2 0 "A"
      = [.create ⟨"", "example.com", "www.example.com", "A", 60, [some ⟨["1.2.3.4"]⟩]⟩ none] ∧
    ¬ ∃ err, creates (UpdateDomains Char.toLower (scenario [⟨"www", true, false, false⟩])
        faithful "1.2.3.4" "<nil>" Store.empty).2 0 "A"
      = [.create ⟨"", "example.com", "www", "A", 60, [some ⟨["1.2.3.4"]⟩]⟩ err] := by
  have h : creates (UpdateDomains Char.toLower (scenario [⟨"www", true, false, false⟩]) faithful
        "1.2.3.4" "<nil>" Store.empty).2 0 "A"
      = [.create ⟨"", "example.com", "www.example.com", "A", 60, [some ⟨["1.2.3.4"]⟩]⟩ none] := by
    decide
  refine ⟨by decide, h, ?_⟩
  rw [h]
  rintro ⟨err, he⟩
  simp at he

/-- Drift correction, for a record whose answer is not the nil pointer: if the entry at
position `i` wants records of type `t` and the read of `(zone, name, t)` made for it returns a
record that differs from the desired state (its number of answers is not 1, or its single
answer's text is not `ip`, or its TTL is not 60), the pass issues exactly one update for that
entry and type and no create; the record sent carries the ID of the record read, TTL 60 and
the single answer `ip`. -/
theorem drift_updates_record {σ : Type} (lower : Char → Char)
    (configuration : Config) (client : Client σ) (ipv4 ipv6 : String) (w : σ) (i : Nat)
    (d : Domain) (t ip : String) (record : Record)
    (hd : configuration.Domains[i]? = some d) (ht : Wants d ipv4 ipv6 t ip)
    (hread : (⟨i, .get configuration.Basic.Zone d.Name t (.ok record)⟩ : Event)
      ∈ (UpdateDomains lower configuration client ipv4 ipv6 w).2)
    (hnil : record.Answers ≠ [none])
    (hdiff : record.Answers.length ≠ 1 ∨ (∃ a, record.Answers = [some a] ∧ a.String ≠ ip) ∨
      record.TTL ≠ 60) :
    ∃ err,
      updates (UpdateDomains lower configuration client ipv4 ipv6 w).2 i t
        = [.update
            { ID := record.ID
              Zone := configuration.Basic.Zone
              Domain := (NewRecord lower configuration.Basic.Zone d.Name t).Domain
              RType := t
              TTL := 60
              Answers := [some ⟨[ip]⟩] } err] ∧
      creates (UpdateDomains lower configuration client ipv4 ipv6 w).2 i t = [] := by
  obtain ⟨err, h1, h2⟩ :=
    entry_sync lower configuration client ipv4 ipv6 w i d t ip _ hd ht hread
  refine ⟨err, ?_, ?_⟩
  · rw [h2]
    simp [(differs_true_iff record ip).2 ⟨hnil, hdiff⟩, desiredRecord, NewRecord,
      Record.AddAnswer]
  · rw [h1]; simp

/-- The right address with the TTL 3600 is rewritten, under the ID read. -/
theorem drift_updates_record_witness :
    ∃ err,
      updates (UpdateDomains Char.toLower (scenario [⟨"a.example.com", true, false, false⟩])
          faithful "1.2.3.4" "<nil>" driftStore).2 0 "A"
        = [.update
            { ID := "id-17"
              Zone := "example.com"
              Domain := (NewRecord Char.toLower "example.com" "a.example.com" "A").Domain
              RType := "A"
              TTL := 60
              Answers := [some ⟨["1.2.3.4"]⟩] } err] ∧
      creates (UpdateDomains Char.toLower (scenario [⟨"a.example.com", true, false, false⟩])
          faithful "1.2.3.4" "<nil>" driftStore).2 0 "A" = [] :=
  drift_updates_record Char.toLower (scenario [⟨"a.example.com", true, false, false⟩]) faithful
    "1.2.3.4" "<nil>" driftStore 0 ⟨"a.example.com", true, false, false⟩ "A" "1.2.3.4"
    ⟨"id-17", "example.com", "a.example.com", "A", 3600, [some ⟨["1.2.3.4"]⟩]⟩
    (by decide) (by decide) (by decide) (by decide) (Or.inr (Or.inr (by decide)))

/-- C2, the code at the failing input: the read made for the entry returns a record with the
TTL 3600 whose one answer is the nil pointer.  The record differs from the desired state (its
TTL is not 60), but the comparison of line 106 dereferences the answer: the pass panics after
the read and issues no update. -/
theorem drift_nil_answer_panics :
    (UpdateDomains Char.toLower (scenario [⟨"a.example.com", true, false, false⟩])
        nullAnswerClient "1.2.3.4" "<nil>" ()).2
      = [⟨0, .get "example.com" "a.example.com" "A"
            (.ok ⟨"id-17", "example.com", "a.example.com", "A", 3600, [none]⟩)⟩,
         ⟨0, .panic⟩] ∧
    updates (UpdateDomains Char.toLower (scenario [⟨"a.example.com", true, false, false⟩])
        nullAnswerClient "1.2.3.4" "<nil>" ()).2 0 "A" = [] := by
  decide

/-- C3: if the entry at position `i` wants records of type `t` and the read of
`(zone, name, t)` made for it returns a record with exactly one answer, whose text (the
method `String` of the answer) is `ip`, and with TTL 60, the pass issues neither a create nor an
update for that entry and type. -/
theorem match_issues_no_write {σ : Type} (lower : Char → Char)
    (configuration : Config) (client : Client σ) (ipv4 ipv6 : String) (w : σ) (i : Nat)
    (d : Domain) (t ip : String) (record : Record)
    (hd : configuration.Domains[i]? = some d) (ht : Wants d ipv4 ipv6 t ip)
    (hread : (⟨i, .get configuration.Basic.Zone d.Name t (.ok record)⟩ : Event)
      ∈ (UpdateDomains lower configuration client ipv4 ipv6 w).2)
    (hmatch : ∃ a, record.Answers = [some a] ∧ a.String = ip ∧ record.TTL = 60) :
    creates (UpdateDomains lower configuration client ipv4 ipv6 w).2 i t = [] ∧
    updates (UpdateDomains lower configuration client ipv4 ipv6 w).2 i t = [] := by
  obtain ⟨err, h1, h2⟩ :=
    entry_sync lower configuration client ipv4 ipv6 w i d t ip _ hd ht hread
  have hnd : differs record ip = some false := (differs_false_iff record ip).2 hmatch
  refine ⟨?_, ?_⟩
  · rw [h1]; simp
  · rw [h2]; simp [hnd]

/-- Witness of C3 (the scenario of the specification): the whole trace is the one read, so
there is no write call at all. -/
theorem match_issues_no_write_witness :
    (UpdateDomains Char.toLower (scenario [⟨"a.example.com", true, false, false⟩]) faithful
        "1.2.3.4" "<nil>" matchingStore).2
      = [⟨0, .get "example.com" "a.example.com" "A"
          (.ok ⟨"id-17", "example.com", "a.example.com", "A", 60, [some ⟨["1.2.3.4"]⟩]⟩)⟩] ∧
    creates (UpdateDomains Char.toLower (scenario [⟨"a.example.com", true, false, false⟩])
        faithful "1.2.3.4" "<nil>" matchingStore).2 0 "A" = [] ∧
    updates (UpdateDomains Char.toLower (scenario [⟨"a.example.com", true, false, false⟩])
        faithful "1.2.3.4" "<nil>" matchingStore).2 0 "A" = [] :=
  ⟨by decide,
   match_issues_no_write Char.toLower (scenario [⟨"a.example.com", true, false, false⟩])
    faithful "1.2.3.4" "<nil>" matchingStore 0 ⟨"a.example.com", true, false, false⟩ "A"
    "1.2.3.4" ⟨"id-17", "example.com", "a.example.com", "A", 60, [some ⟨["1.2.3.4"]⟩]⟩
    (by decide) (by decide) (by decide) ⟨⟨["1.2.3.4"]⟩, rfl, by decide, rfl⟩⟩


/-! ## Isolation -/

theorem panicked_thenCalls (a b : List Op) :
    panicked (thenCalls a b) = (panicked a || panicked b) := by
  unfold thenCalls
  by_cases h : panicked a = true
  · simp [h]
  · have h' : panicked a = false := by simpa using h
    simp [h', panicked_append]

theorem filterMap_attempt_calls (ops : List Op) :
    (calls ops).filterMap Op.attempt = ops.filterMap Op.attempt := by
  induction ops with
  | nil => rfl
  | cons o ops ih =>
    cases o <;> simp_all [calls, Op.isPrint, Op.attempt, List.filter_cons]

theorem syncCalls_attempts (lower : Char → Char) (zone name t ip : String)
    (res : Except GoError Record) (err : Option GoError) :
    (syncCalls lower zone name t ip res err).filterMap Op.attempt = [.read zone name t] := by
  rcases res with e | r
  · cases e <;> simp [syncCalls, optWrite, expectedWrite, Op.attempt]
  · rcases hd : differs r ip with _ | b
    · simp [syncCalls, optWrite, expectedWrite, Op.attempt, hd]
    · cases b <;> simp [syncCalls, optWrite, expectedWrite, Op.attempt, hd]

theorem updateDomain_attempts {σ : Type} (lower : Char → Char) (client : Client σ)
    (zone ipv4 ipv6 : String) (d : Domain) (w : σ)
    (hp : panicked (updateDomain lower client zone ipv4 ipv6 d w).2 = false) :
    (updateDomain lower client zone ipv4 ipv6 d w).2.filterMap Op.attempt = planned zone d := by
  obtain ⟨resA, errA, resB, errB, e1, e2, e3, hc⟩ :=
    updateDomain_calls lower client zone ipv4 ipv6 d w
  rw [← panicked_calls, hc, domainCalls, panicked_thenCalls, panicked_thenCalls] at hp
  simp only [Bool.or_eq_false_iff] at hp
  obtain ⟨hpA, hpB, _⟩ := hp
  rw [← filterMap_attempt_calls, hc, domainCalls, thenCalls_of_not_panicked _ _ hpA,
    thenCalls_of_not_panicked _ _ hpB]
  rcases d with ⟨name, v4, v6, repl⟩
  cases v4 <;> cases v6 <;> cases repl <;>
    simp [removeCalls, planned, List.filterMap_append, syncCalls_attempts, Op.attempt]

theorem updateLoop_attempts {σ : Type} (lower : Char → Char) (client : Client σ)
    (zone ipv4 ipv6 : String) (ds : List Domain) :
    ∀ (k : Nat) (w : σ), Completed (updateLoop lower client zone ipv4 ipv6 ds k w).2 →
      attempts (updateLoop lower client zone ipv4 ipv6 ds k w).2 = planFrom zone k ds := by
  induction ds with
  | nil => intro k w _; rfl
  | cons d ds ih =>
    intro k w hc
    by_cases hp : panicked (updateDomain lower client zone ipv4 ipv6 d w).2 = true
    · exfalso
      rw [Completed_iff] at hc
      simp [updateLoop, hp, Function.comp_def] at hc
    · have hp' : panicked (updateDomain lower client zone ipv4 ipv6 d w).2 = false := by
        simpa using hp
      have htr : (updateLoop lower client zone ipv4 ipv6 (d :: ds) k w).2
          = (updateDomain lower client zone ipv4 ipv6 d w).2.map (Event.mk k)
            ++ (updateLoop lower client zone ipv4 ipv6 ds (k + 1)
                (updateDomain lower client zone ipv4 ipv6 d w).1).2 := by
        simp [updateLoop, hp']
      rw [htr] at hc ⊢
      have ih2 := ih (k + 1) (updateDomain lower client zone ipv4 ipv6 d w).1
        (fun e he => hc e (List.mem_append_right _ he))
      unfold attempts at ih2 ⊢
      simp only [planFrom, List.filterMap_append, ih2]
      congr 1
      rw [← updateDomain_attempts lower client zone ipv4 ipv6 d w hp']
      simp [List.filterMap_map, List.map_filterMap, Function.comp_def]

/-- Isolation, for a pass that does not panic: whatever the record store does (any client over
any world, so any call may fail with any error), the sub-operations attempted are exactly
those the flags of the entries enable, for every entry, in list order. -/
theorem completed_pass_attempts_all {σ : Type} (lower : Char → Char)
    (configuration : Config) (client : Client σ) (ipv4 ipv6 : String) (w : σ)
    (hc : Completed (UpdateDomains lower configuration client ipv4 ipv6 w).2) :
    attempts (UpdateDomains lower configuration client ipv4 ipv6 w).2
      = planFrom configuration.Basic.Zone 0 configuration.Domains :=
  updateLoop_attempts lower client configuration.Basic.Zone ipv4 ipv6 configuration.Domains 0 w
    hc

/-- C6, the code at the failing input: the list has the entries `a.example.com` (IPv4 and
Replace set) and `b.example.com` (IPv4 set), and the read made for the first entry returns a
record whose one answer is the nil pointer.  The comparison of line 106 dereferences it, the
pass panics, and of the four sub-operations the flags enable only the first read is
attempted: neither the deletes of the first entry nor the read of the second. -/
theorem nil_answer_aborts_pass :
    (UpdateDomains Char.toLower (scenario [⟨"a.example.com", true, false, true⟩,
        ⟨"b.example.com", true, false, false⟩]) nullAnswerClient "1.2.3.4" "<nil>" ()).2
      = [⟨0, .get "example.com" "a.example.com" "A"
            (.ok ⟨"id-17", "example.com", "a.example.com", "A", 3600, [none]⟩)⟩,
         ⟨0, .panic⟩] ∧
    attempts (UpdateDomains Char.toLower (scenario [⟨"a.example.com", true, false, true⟩,
        ⟨"b.example.com", true, false, false⟩]) nullAnswerClient "1.2.3.4" "<nil>" ()).2
      = [(0, .read "example.com" "a.example.com" "A")] ∧
    planFrom "example.com" 0 [⟨"a.example.com", true, false, true⟩,
        ⟨"b.example.com", true, false, false⟩]
      = [(0, .read "example.com" "a.example.com" "A"),
         (0, .remove "example.com" "a.example.com" "AAAA"),
         (0, .remove "example.com" "a.example.com" "CNAME"),
         (1, .read "example.com" "b.example.com" "A")] := by
  decide

/-! ## The pass against the store on which every call takes effect -/

theorem desiredRecord_key (lower : Char → Char) (zone name t : String) (a : Answer) :
    (desiredRecord lower zone name t a).key = (zone, (NewRecord lower zone name t).Domain, t) := by
  simp [desiredRecord, Record.key, Record.AddAnswer, NewRecord]

theorem NewRecord_domain_of_suffix (lower : Char → Char) (zone name t : String)
    (h : hasZoneSuffix lower name zone = true) : (NewRecord lower zone name t).Domain = name := by
  simp [NewRecord, h]

theorem NewRecord_domain_type (lower : Char → Char) (zone name t q : String) :
    (NewRecord lower zone name t).Domain = (NewRecord lower zone name q).Domain := by
  simp [NewRecord]

theorem desiredRecord_answers (lower : Char → Char) (zone name t id : String) (a : Answer) :
    ({ desiredRecord lower zone name t a with ID := id } : Record).Answers = [some a] := by
  simp [desiredRecord, Record.AddAnswer, NewRecord]

theorem desiredRecord_no_nil (lower : Char → Char) (zone name t id : String) (a : Answer) :
    none ∉ ({ desiredRecord lower zone name t a with ID := id } : Record).Answers := by
  simp [desiredRecord, Record.AddAnswer, NewRecord]

theorem stored_differs (r : Stored) (ip : String) : differs r.val ip ≠ none := by
  intro h
  rw [differs_none_iff] at h
  exact r.property (by simp [h])

theorem differs_desired (new : Record) (ip id : String) (hb : BracketFree ip)
    (hA : new.Answers = [some ⟨[ip]⟩]) (hT : new.TTL = 60) :
    differs { new with ID := id } ip = some false := by
  simp [differs, hA, hT, answer_string_single ip hb]

theorem faithful_Get (zone name t : String) (s : Store) :
    faithful.Get zone name t s
      = match s (zone, name, t) with
        | some r => (.ok r.val, s)
        | none => (.error .ErrRecordMissing, s) := rfl

theorem faithful_Create (r : Record) (h : none ∉ r.Answers) (s : Store) :
    faithful.Create r s
      = match s r.key with
        | some _ => (some (.other "record already exists"), s)
        | none => (none, Function.update s r.key (some ⟨r, h⟩)) := by
  simp only [faithful, dif_pos h]

theorem faithful_Update (r : Record) (h : none ∉ r.Answers) (s : Store) :
    faithful.Update r s
      = match s r.key with
        | some _ => (none, Function.update s r.key (some ⟨r, h⟩))
        | none => (some .ErrRecordMissing, s) := by
  simp only [faithful, dif_pos h]

/-- Against the store on which every call takes effect, the body of `if domain.IPv4` leaves the
store as it was or puts a record with the wanted answer and the TTL 60 under the key of the
wanted record; it never panics, since the store holds no nil answer. -/
theorem syncRecord_faithful_run (lower : Char → Char) (zone name t ip : String) (s : Store) :
    panicked (syncRecord lower faithful zone name t ip ⟨[ip]⟩ s).2 = false ∧
    ((syncRecord lower faithful zone name t ip ⟨[ip]⟩ s).1 = s ∨
      ∃ r : Stored, r.val.Answers = [some ⟨[ip]⟩] ∧ r.val.TTL = 60 ∧
        (syncRecord lower faithful zone name t ip ⟨[ip]⟩ s).1
          = Function.update s (zone, (NewRecord lower zone name t).Domain, t) (some r)) := by
  have hkey := desiredRecord_key lower zone name t ⟨[ip]⟩
  have hkey2 : ∀ id, ({ desiredRecord lower zone name t ⟨[ip]⟩ with ID := id } : Record).key
      = (zone, (NewRecord lower zone name t).Domain, t) := by
    intro id; simpa [Record.key] using hkey
  have hnn : ∀ id, none ∉ ({ desiredRecord lower zone name t ⟨[ip]⟩ with ID := id }
      : Record).Answers := fun id => desiredRecord_no_nil lower zone name t id ⟨[ip]⟩
  have hans : ∀ id, ({ desiredRecord lower zone name t ⟨[ip]⟩ with ID := id } : Record).Answers
      = [some ⟨[ip]⟩] := fun id => desiredRecord_answers lower zone name t id ⟨[ip]⟩
  have httl : (desiredRecord lower zone name t ⟨[ip]⟩).TTL = 60 := by
    simp [desiredRecord, Record.AddAnswer]
  unfold syncRecord
  rw [faithful_Get]
  rcases hs : s (zone, name, t) with _ | r
  · simp only [if_true]
    have hc := faithful_Create (desiredRecord lower zone name t ⟨[ip]⟩)
      (hnn (desiredRecord lower zone name t ⟨[ip]⟩).ID) s
    rw [hkey] at hc
    rcases hk : s (zone, (NewRecord lower zone name t).Domain, t) with _ | r0
    · rw [hk] at hc
      simp only [hc]
      exact ⟨by simp [panicked], Or.inr ⟨⟨_, hnn _⟩, hans _, httl, rfl⟩⟩
    · rw [hk] at hc
      simp only [hc]
      simp [panicked]
  · simp only
    rcases hd : differs r.val ip with _ | b
    · exact absurd hd (stored_differs r ip)
    · cases b
      · simp [panicked]
      · simp only
        have hu := faithful_Update
          ({ desiredRecord lower zone name t ⟨[ip]⟩ with ID := r.val.ID })
          (hnn r.val.ID) s
        rw [hkey2] at hu
        rcases hk : s (zone, (NewRecord lower zone name t).Domain, t) with _ | r0
        · rw [hk] at hu
          simp only [hu]
          simp [panicked]
        · rw [hk] at hu
          simp only [hu]
          exact ⟨by simp [panicked],
            Or.inr ⟨⟨{ desiredRecord lower zone name t ⟨[ip]⟩ with ID := r.val.ID }, hnn _⟩,
              hans _, httl, rfl⟩⟩

theorem syncRecord_faithful_nopanic (lower : Char → Char) (zone name t ip : String)
    (s : Store) : panicked (syncRecord lower faithful zone name t ip ⟨[ip]⟩ s).2 = false :=
  (syncRecord_faithful_run lower zone name t ip s).1

theorem syncRecord_faithful_frame (lower : Char → Char) (zone name t ip : String) (s : Store)
    (k : Key) (hk : k ≠ (zone, (NewRecord lower zone name t).Domain, t)) :
    (syncRecord lower faithful zone name t ip ⟨[ip]⟩ s).1 k = s k := by
  rcases (syncRecord_faithful_run lower zone name t ip s).2 with h | ⟨r, _, _, h⟩
  · rw [h]
  · rw [h, Function.update_noteq hk]

theorem syncRecord_faithful_establish (lower : Char → Char) (zone name t ip : String)
    (s : Store) (hb : BracketFree ip) (hn : (NewRecord lower zone name t).Domain = name) :
    ∃ r, (syncRecord lower faithful zone name t ip ⟨[ip]⟩ s).1 (zone, name, t) = some r ∧
      differs r.val ip = some false := by
  have hkey := desiredRecord_key lower zone name t ⟨[ip]⟩
  rw [hn] at hkey
  have hkey2 : ∀ id, ({ desiredRecord lower zone name t ⟨[ip]⟩ with ID := id } : Record).key
      = (zone, name, t) := by
    intro id; simpa [Record.key] using hkey
  have hnn : ∀ id, none ∉ ({ desiredRecord lower zone name t ⟨[ip]⟩ with ID := id }
      : Record).Answers := fun id => desiredRecord_no_nil lower zone name t id ⟨[ip]⟩
  have hd : ∀ id, differs { desiredRecord lower zone name t ⟨[ip]⟩ with ID := id } ip
      = some false :=
    fun id => differs_desired _ ip id hb (by simp [desiredRecord, Record.AddAnswer, NewRecord])
      (by simp [desiredRecord, Record.AddAnswer])
  unfold syncRecord
  rw [faithful_Get]
  rcases hs : s (zone, name, t) with _ | r
  · simp only [if_true]
    have hc := faithful_Create (desiredRecord lower zone name t ⟨[ip]⟩)
      (hnn (desiredRecord lower zone name t ⟨[ip]⟩).ID) s
    rw [hkey, hs] at hc
    simp only [hc]
    exact ⟨_, Function.update_same _ _ _, hd _⟩
  · simp only
    rcases hdf : differs r.val ip with _ | b
    · exact absurd hdf (stored_differs r ip)
    · cases b
      · exact ⟨r, hs, hdf⟩
      · simp only
        have hu := faithful_Update
          ({ desiredRecord lower zone name t ⟨[ip]⟩ with ID := r.val.ID }) (hnn r.val.ID) s
        rw [hkey2, hs] at hu
        simp only [hu]
        exact ⟨_, Function.update_same _ _ _, hd _⟩

theorem syncRecord_faithful_stable (lower : Char → Char) (zone name t ip : String)
    (s : Store) (r : Stored) (hs : s (zone, name, t) = some r)
    (hd : differs r.val ip = some false) :
    syncRecord lower faithful zone name t ip ⟨[ip]⟩ s
      = (s, [.get zone name t (.ok r.val)]) := by
  unfold syncRecord
  rw [faithful_Get]
  simp [hs, hd]

theorem removeRecord_faithful_store (zone name t : String) (s : Store) :
    (removeRecord faithful zone name t s).1 = Function.update s (zone, name, t) none := by
  unfold removeRecord
  simp only [faithful]
  rcases hs : s (zone, name, t) with _ | r
  · simp [hs]
  · simp

theorem removeRecord_faithful_stable (zone name t : String) (s : Store)
    (hs : s (zone, name, t) = none) :
    removeRecord faithful zone name t s
      = (s, [.delete zone name t (some .ErrRecordMissing)]) := by
  unfold removeRecord
  simp [faithful, hs]

theorem updateDomain_faithful_nopanic (lower : Char → Char) (zone ipv4 ipv6 : String)
    (d : Domain) (s : Store) :
    panicked (updateDomain lower faithful zone ipv4 ipv6 d s).2 = false := by
  rcases d with ⟨name, v4, v6, repl⟩
  cases v4 <;> cases v6 <;> cases repl <;>
    simp [updateDomain, andThen_apply, whenB, NewAv4Answer, NewAv6Answer,
      syncRecord_faithful_nopanic, removeRecord_panicked, panicked_append, panicked_nil]

theorem updateLoop_faithful_cons (lower : Char → Char) (zone ipv4 ipv6 : String)
    (d : Domain) (ds : List Domain) (i : Nat) (s : Store) :
    updateLoop lower faithful zone ipv4 ipv6 (d :: ds) i s
      = ((updateLoop lower faithful zone ipv4 ipv6 ds (i + 1)
            (updateDomain lower faithful zone ipv4 ipv6 d s).1).1,
          (updateDomain lower faithful zone ipv4 ipv6 d s).2.map (Event.mk i)
            ++ (updateLoop lower faithful zone ipv4 ipv6 ds (i + 1)
                (updateDomain lower faithful zone ipv4 ipv6 d s).1).2) := by
  simp [updateLoop, updateDomain_faithful_nopanic]

theorem updateLoop_faithful_completed (lower : Char → Char) (zone ipv4 ipv6 : String)
    (ds : List Domain) :
    ∀ (i : Nat) (s : Store), Completed (updateLoop lower faithful zone ipv4 ipv6 ds i s).2 := by
  induction ds with
  | nil => intro i s e he; simp [updateLoop] at he
  | cons d ds ih =>
    intro i s
    rw [updateLoop_faithful_cons, Completed_iff, List.map_append, panicked_append]
    simp only [Bool.or_eq_false_iff]
    refine ⟨?_, (Completed_iff _).1 (ih _ _)⟩
    simp [Function.comp_def, updateDomain_faithful_nopanic]

theorem updateDomain_faithful_store (lower : Char → Char) (zone ipv4 ipv6 : String)
    (d : Domain) (s : Store) :
    (updateDomain lower faithful zone ipv4 ipv6 d s).1 =
      let sA := if d.IPv4 then (syncRecord lower faithful zone d.Name "A" ipv4 ⟨[ipv4]⟩ s).1 else s
      let sB := if d.IPv6 then (syncRecord lower faithful zone d.Name "AAAA" ipv6 ⟨[ipv6]⟩ sA).1
        else sA
      let s1 := if d.IPv4 then sB else Function.update sB (zone, d.Name, "A") none
      let s2 := if d.IPv6 then s1 else Function.update s1 (zone, d.Name, "AAAA") none
      if d.Replace then Function.update s2 (zone, d.Name, "CNAME") none else sB := by
  rcases d with ⟨name, v4, v6, repl⟩
  cases v4 <;> cases v6 <;> cases repl <;>
    simp [updateDomain, andThen_apply, whenB, removeRecord_faithful_store, NewAv4Answer,
      NewAv6Answer, syncRecord_faithful_nopanic, removeRecord_panicked, panicked_nil]

theorem updateDomain_faithful_synced (lower : Char → Char) (zone ipv4 ipv6 : String)
    (d : Domain) (s : Store) (k : Key)
    (hsafeA : d.IPv4 = true → k ≠ (zone, (NewRecord lower zone d.Name "A").Domain, "A"))
    (hsafeB : d.IPv6 = true → k ≠ (zone, (NewRecord lower zone d.Name "AAAA").Domain, "AAAA")) :
    (if d.IPv6 then (syncRecord lower faithful zone d.Name "AAAA" ipv6 ⟨[ipv6]⟩
        (if d.IPv4 then (syncRecord lower faithful zone d.Name "A" ipv4 ⟨[ipv4]⟩ s).1 else s)).1
      else (if d.IPv4 then (syncRecord lower faithful zone d.Name "A" ipv4 ⟨[ipv4]⟩ s).1 else s)) k
      = s k := by
  have hA : (if d.IPv4 then (syncRecord lower faithful zone d.Name "A" ipv4 ⟨[ipv4]⟩ s).1
      else s) k = s k := by
    split
    · rename_i h; exact syncRecord_faithful_frame _ _ _ _ _ _ _ (hsafeA h)
    · rfl
  split
  · rename_i h
    rw [syncRecord_faithful_frame _ _ _ _ _ _ _ (hsafeB h), hA]
  · exact hA

theorem updateDomain_faithful_none (lower : Char → Char) (zone ipv4 ipv6 : String)
    (d : Domain) (s : Store) (k : Key)
    (hsafeA : d.IPv4 = true → k ≠ (zone, (NewRecord lower zone d.Name "A").Domain, "A"))
    (hsafeB : d.IPv6 = true → k ≠ (zone, (NewRecord lower zone d.Name "AAAA").Domain, "AAAA"))
    (h : s k = none ∨ (d.Replace = true ∧ (k = (zone, d.Name, "CNAME") ∨
      (d.IPv4 = false ∧ k = (zone, d.Name, "A")) ∨
      (d.IPv6 = false ∧ k = (zone, d.Name, "AAAA"))))) :
    (updateDomain lower faithful zone ipv4 ipv6 d s).1 k = none := by
  rw [updateDomain_faithful_store]
  have hS := updateDomain_faithful_synced lower zone ipv4 ipv6 d s k hsafeA hsafeB
  dsimp only
  generalize (if d.IPv6 then (syncRecord lower faithful zone d.Name "AAAA" ipv6 ⟨[ipv6]⟩
        (if d.IPv4 then (syncRecord lower faithful zone d.Name "A" ipv4 ⟨[ipv4]⟩ s).1 else s)).1
      else (if d.IPv4 then (syncRecord lower faithful zone d.Name "A" ipv4 ⟨[ipv4]⟩ s).1 else s))
    = sB at hS ⊢
  rcases d with ⟨name, v4, v6, repl⟩
  simp only at h
  rcases h with h | ⟨rfl, h⟩
  · rw [← hS] at h
    cases v4 <;> cases v6 <;> cases repl <;> simp [Function.update, h]
  · rcases h with rfl | ⟨rfl, rfl⟩ | ⟨rfl, rfl⟩
    · simp
    · cases v6 <;> simp [Function.update]
    · cases v4 <;> simp [Function.update]

theorem updateDomain_faithful_frame (lower : Char → Char) (zone ipv4 ipv6 : String)
    (d : Domain) (s : Store) (k : Key)
    (hsafeA : d.IPv4 = true → k ≠ (zone, (NewRecord lower zone d.Name "A").Domain, "A"))
    (hsafeB : d.IPv6 = true → k ≠ (zone, (NewRecord lower zone d.Name "AAAA").Domain, "AAAA"))
    (hC : d.Replace = true → k ≠ (zone, d.Name, "CNAME"))
    (hA : d.Replace = true → d.IPv4 = false → k ≠ (zone, d.Name, "A"))
    (hB : d.Replace = true → d.IPv6 = false → k ≠ (zone, d.Name, "AAAA")) :
    (updateDomain lower faithful zone ipv4 ipv6 d s).1 k = s k := by
  rw [updateDomain_faithful_store]
  have hS := updateDomain_faithful_synced lower zone ipv4 ipv6 d s k hsafeA hsafeB
  dsimp only
  generalize (if d.IPv6 then (syncRecord lower faithful zone d.Name "AAAA" ipv6 ⟨[ipv6]⟩
        (if d.IPv4 then (syncRecord lower faithful zone d.Name "A" ipv4 ⟨[ipv4]⟩ s).1 else s)).1
      else (if d.IPv4 then (syncRecord lower faithful zone d.Name "A" ipv4 ⟨[ipv4]⟩ s).1 else s))
    = sB at hS ⊢
  rw [← hS]
  rcases d with ⟨name, v4, v6, repl⟩
  cases v4 <;> cases v6 <;> cases repl <;> simp_all [Function.update]

theorem updateDomain_faithful_syncA (lower : Char → Char) (zone ipv4 ipv6 : String)
    (d : Domain) (s : Store) (hb : BracketFree ipv4) (h4 : d.IPv4 = true)
    (hn : (NewRecord lower zone d.Name "A").Domain = d.Name) :
    ∃ r, (updateDomain lower faithful zone ipv4 ipv6 d s).1 (zone, d.Name, "A") = some r ∧
      differs r.val ipv4 = some false := by
  rw [updateDomain_faithful_store]
  rcases d with ⟨name, v4, v6, repl⟩
  simp only at h4 hn
  subst h4
  obtain ⟨r, hr, hd⟩ := syncRecord_faithful_establish lower zone name "A" ipv4 s hb hn
  have fB := syncRecord_faithful_frame lower zone name "AAAA" ipv6
    (syncRecord lower faithful zone name "A" ipv4 ⟨[ipv4]⟩ s).1 (zone, name, "A") (by simp)
  refine ⟨r, ?_, hd⟩
  cases v6 <;> cases repl <;> simp_all [Function.update]

theorem updateDomain_faithful_syncAAAA (lower : Char → Char) (zone ipv4 ipv6 : String)
    (d : Domain) (s : Store) (hb : BracketFree ipv6) (h6 : d.IPv6 = true)
    (hn : (NewRecord lower zone d.Name "AAAA").Domain = d.Name) :
    ∃ r, (updateDomain lower faithful zone ipv4 ipv6 d s).1 (zone, d.Name, "AAAA") = some r ∧
      differs r.val ipv6 = some false := by
  rw [updateDomain_faithful_store]
  rcases d with ⟨name, v4, v6, repl⟩
  simp only at h6 hn
  subst h6
  obtain ⟨r, hr, hd⟩ := syncRecord_faithful_establish lower zone name "AAAA" ipv6
    (if v4 then (syncRecord lower faithful zone name "A" ipv4 ⟨[ipv4]⟩ s).1 else s) hb hn
  refine ⟨r, ?_, hd⟩
  cases v4 <;> cases repl <;> simp_all [Function.update]

theorem updateLoop_faithful_none (lower : Char → Char) (zone ipv4 ipv6 : String) (k : Key)
    (ds : List Domain)
    (hsafeA : ∀ e ∈ ds, e.IPv4 = true → k ≠ (zone, (NewRecord lower zone e.Name "A").Domain, "A"))
    (hsafeB : ∀ e ∈ ds, e.IPv6 = true →
      k ≠ (zone, (NewRecord lower zone e.Name "AAAA").Domain, "AAAA")) :
    ∀ (i : Nat) (s : Store), s k = none →
      (updateLoop lower faithful zone ipv4 ipv6 ds i s).1 k = none := by
  induction ds with
  | nil => intro i s h; exact h
  | cons d ds ih =>
    intro i s h
    rw [updateLoop_faithful_cons]
    apply ih (fun e he => hsafeA e (List.mem_cons_of_mem _ he))
      (fun e he => hsafeB e (List.mem_cons_of_mem _ he))
    exact updateDomain_faithful_none lower zone ipv4 ipv6 d s k
      (hsafeA d (List.mem_cons_self _ _)) (hsafeB d (List.mem_cons_self _ _)) (Or.inl h)

theorem updateLoop_faithful_removed (lower : Char → Char) (zone ipv4 ipv6 : String) (k : Key)
    (d : Domain) (hr : d.Replace = true)
    (hk : k = (zone, d.Name, "CNAME") ∨ (d.IPv4 = false ∧ k = (zone, d.Name, "A")) ∨
      (d.IPv6 = false ∧ k = (zone, d.Name, "AAAA")))
    (ds : List Domain) (hd : d ∈ ds)
    (hsafeA : ∀ e ∈ ds, e.IPv4 = true → k ≠ (zone, (NewRecord lower zone e.Name "A").Domain, "A"))
    (hsafeB : ∀ e ∈ ds, e.IPv6 = true →
      k ≠ (zone, (NewRecord lower zone e.Name "AAAA").Domain, "AAAA")) :
    ∀ (i : Nat) (s : Store), (updateLoop lower faithful zone ipv4 ipv6 ds i s).1 k = none := by
  induction ds with
  | nil => simp at hd
  | cons d0 ds ih =>
    intro i s
    rw [updateLoop_faithful_cons]
    have hA' : ∀ e ∈ ds, e.IPv4 = true →
        k ≠ (zone, (NewRecord lower zone e.Name "A").Domain, "A") :=
      fun e he => hsafeA e (List.mem_cons_of_mem _ he)
    have hB' : ∀ e ∈ ds, e.IPv6 = true →
        k ≠ (zone, (NewRecord lower zone e.Name "AAAA").Domain, "AAAA") :=
      fun e he => hsafeB e (List.mem_cons_of_mem _ he)
    rcases List.mem_cons.1 hd with rfl | hmem
    · apply updateLoop_faithful_none lower zone ipv4 ipv6 k ds hA' hB'
      exact updateDomain_faithful_none lower zone ipv4 ipv6 d s k
        (hsafeA d (List.mem_cons_self _ _)) (hsafeB d (List.mem_cons_self _ _))
        (Or.inr ⟨hr, hk⟩)
    · exact ih hmem hA' hB' _ _

theorem panicked_entryOps (trace : List Event) (i : Nat)
    (h : panicked (entryOps trace i) = true) : ¬ Completed trace := by
  intro hc
  simp only [panicked, entryOps, List.contains_iff_exists_mem_beq, List.mem_map,
    List.mem_filter] at h
  obtain ⟨o, ⟨e, ⟨he, _⟩, rfl⟩, ho⟩ := h
  exact hc e he (eq_of_beq ho).symm

theorem syncCalls_deletes (lower : Char → Char) (zone name t ip : String)
    (res : Except GoError Record) (err : Option GoError) :
    (syncCalls lower zone name t ip res err).filter Op.isDelete = [] := by
  rcases res with e | r
  · cases e <;> simp [syncCalls, optWrite, expectedWrite, Op.isDelete]
  · rcases hd : differs r ip with _ | b
    · simp [syncCalls, optWrite, expectedWrite, Op.isDelete, hd]
    · cases b <;> simp [syncCalls, optWrite, expectedWrite, Op.isDelete, hd]

theorem removeCalls_deletes (zone : String) (d : Domain) (e1 e2 e3 : Option GoError) :
    (removeCalls zone d e1 e2 e3).filter Op.isDelete = removeCalls zone d e1 e2 e3 := by
  rcases d with ⟨name, v4, v6, repl⟩
  cases v4 <;> cases v6 <;> cases repl <;> simp [removeCalls, Op.isDelete]

/-- The deletes of the entry at position `i`, for any client: those of lines 138-155, unless the
pass panicked before it reached them, in which case the entry issued no delete. -/
theorem entry_deletes {σ : Type} (lower : Char → Char) (configuration : Config)
    (client : Client σ) (ipv4 ipv6 : String) (w : σ) (i : Nat) (d : Domain)
    (hd : configuration.Domains[i]? = some d) :
    ∃ e1 e2 e3,
      deletes (UpdateDomains lower configuration client ipv4 ipv6 w).2 i
        = removeCalls configuration.Basic.Zone d e1 e2 e3 ∨
      (¬ Completed (UpdateDomains lower configuration client ipv4 ipv6 w).2 ∧
        deletes (UpdateDomains lower configuration client ipv4 ipv6 w).2 i = []) := by
  have h := updateLoop_entry lower client configuration.Basic.Zone ipv4 ipv6
    configuration.Domains 0 w i d hd
  simp only [Nat.zero_add] at h
  rcases h with ⟨h1, h2⟩ | ⟨w1, hw1⟩
  · exact ⟨none, none, none, Or.inr ⟨h2, by simp [deletes, UpdateDomains, h1]⟩⟩
  · obtain ⟨resA, errA, resB, errB, e1, e2, e3, hc⟩ :=
      updateDomain_calls lower client configuration.Basic.Zone ipv4 ipv6 d w1
    refine ⟨e1, e2, e3, ?_⟩
    have hdel : deletes (UpdateDomains lower configuration client ipv4 ipv6 w).2 i
        = (domainCalls lower configuration.Basic.Zone ipv4 ipv6 d resA errA resB errB e1 e2
            e3).filter Op.isDelete := by
      unfold deletes
      rw [← filter_calls _ (fun _ => rfl), ← hc]
      simp only [UpdateDomains, hw1]
    have hpan : panicked (entryOps (UpdateDomains lower configuration client ipv4 ipv6 w).2 i)
        = panicked (domainCalls lower configuration.Basic.Zone ipv4 ipv6 d resA errA resB errB
            e1 e2 e3) := by
      rw [← hc, panicked_calls]
      simp only [UpdateDomains, hw1]
    have hA : (if d.IPv4 then syncCalls lower configuration.Basic.Zone d.Name "A" ipv4 resA errA
        else []).filter Op.isDelete = [] := by
      split
      · exact syncCalls_deletes _ _ _ _ _ _ _
      · rfl
    have hB : (if d.IPv6 then syncCalls lower configuration.Basic.Zone d.Name "AAAA" ipv6 resB
        errB else []).filter Op.isDelete = [] := by
      split
      · exact syncCalls_deletes _ _ _ _ _ _ _
      · rfl
    rw [hdel, domainCalls, filter_thenCalls_right _ _ _ hA, filter_thenCalls_right _ _ _ hB,
      removeCalls_deletes]
    rw [domainCalls, panicked_thenCalls, panicked_thenCalls, removeCalls_panicked,
      Bool.or_false] at hpan
    by_cases pA : panicked (if d.IPv4 then syncCalls lower configuration.Basic.Zone d.Name "A"
        ipv4 resA errA else []) = true
    · rw [pA] at hpan
      exact Or.inr ⟨panicked_entryOps _ _ (by simpa using hpan), by simp [pA]⟩
    · by_cases pB : panicked (if d.IPv6 then syncCalls lower configuration.Basic.Zone d.Name
          "AAAA" ipv6 resB errB else []) = true
      · rw [pB] at hpan
        exact Or.inr ⟨panicked_entryOps _ _ (by simpa using hpan), by simp [pB]⟩
      · exact Or.inl (by simp [pA, pB])

/-! ## Conflict cleanup -/

theorem updateLoop_faithful_append_store (lower : Char → Char) (zone ipv4 ipv6 : String)
    (pre rest : List Domain) :
    ∀ (i : Nat) (s : Store),
      (updateLoop lower faithful zone ipv4 ipv6 (pre ++ rest) i s).1
        = (updateLoop lower faithful zone ipv4 ipv6 rest (i + pre.length)
            (updateLoop lower faithful zone ipv4 ipv6 pre i s).1).1 := by
  induction pre with
  | nil => intro i s; simp [updateLoop]
  | cons d pre ih =>
    intro i s
    have h := ih (i + 1) (updateDomain lower faithful zone ipv4 ipv6 d s).1
    have hi : i + 1 + pre.length = i + (pre.length + 1) := by omega
    rw [hi] at h
    simpa only [List.cons_append, updateLoop_faithful_cons, List.length_cons] using h

/-- C5 (amended): for the entry at position `i`, whatever the client does, the deletes
issued are: none when Replace is unset; when Replace is set, the delete of `(zone, name, A)`
exactly when IPv4 is unset, the delete of `(zone, name, AAAA)` exactly when IPv6 is unset, and
always the delete of `(zone, name, CNAME)`; the one exception is a pass that panics before it
reaches these deletes, and then the entry issues no delete.  Against the store on which every
call takes effect, after the pass no CNAME record is left under the name of an entry with
Replace set, and no A record (AAAA record) is left under the name of an entry with Replace set
and IPv4 (IPv6) unset, provided no later entry of the list with IPv4 (IPv6) set writes its
record under that name. -/
theorem conflict_cleanup (lower : Char → Char) (configuration : Config) (ipv4 ipv6 : String) :
    (∀ (σ : Type) (client : Client σ) (w : σ) (i : Nat) (d : Domain),
      configuration.Domains[i]? = some d →
      ∃ e1 e2 e3,
        deletes (UpdateDomains lower configuration client ipv4 ipv6 w).2 i
          = (if d.Replace then
              (if d.IPv4 then [] else [.delete configuration.Basic.Zone d.Name "A" e1]) ++
              (if d.IPv6 then [] else [.delete configuration.Basic.Zone d.Name "AAAA" e2]) ++
              [.delete configuration.Basic.Zone d.Name "CNAME" e3]
            else []) ∨
        (¬ Completed (UpdateDomains lower configuration client ipv4 ipv6 w).2 ∧
          deletes (UpdateDomains lower configuration client ipv4 ipv6 w).2 i = [])) ∧
    (∀ (s : Store) (pre post : List Domain) (d : Domain),
      configuration.Domains = pre ++ d :: post → d.Replace = true →
      (UpdateDomains lower configuration faithful ipv4 ipv6 s).1
          (configuration.Basic.Zone, d.Name, "CNAME") = none ∧
      (d.IPv4 = false →
        (∀ e ∈ post, e.IPv4 = true →
          (NewRecord lower configuration.Basic.Zone e.Name "A").Domain ≠ d.Name) →
        (UpdateDomains lower configuration faithful ipv4 ipv6 s).1
          (configuration.Basic.Zone, d.Name, "A") = none) ∧
      (d.IPv6 = false →
        (∀ e ∈ post, e.IPv6 = true →
          (NewRecord lower configuration.Basic.Zone e.Name "AAAA").Domain ≠ d.Name) →
        (UpdateDomains lower configuration faithful ipv4 ipv6 s).1
          (configuration.Basic.Zone, d.Name, "AAAA") = none)) := by
  refine ⟨fun σ client w i d hd => entry_deletes lower configuration client ipv4 ipv6 w i d hd,
    fun s pre post d hsplit hr => ?_⟩
  have hfinal : (UpdateDomains lower configuration faithful ipv4 ipv6 s).1
      = (updateLoop lower faithful configuration.Basic.Zone ipv4 ipv6 (d :: post)
          (0 + pre.length)
          (updateLoop lower faithful configuration.Basic.Zone ipv4 ipv6 pre 0 s).1).1 := by
    unfold UpdateDomains
    rw [hsplit, updateLoop_faithful_append_store]
  rw [hfinal]
  refine ⟨?_, ?_, ?_⟩
  · exact updateLoop_faithful_removed lower _ ipv4 ipv6 _ d hr (Or.inl rfl) _
      (List.mem_cons_self _ _) (fun e _ _ => by simp) (fun e _ _ => by simp) _ _
  · intro h4 hfree
    refine updateLoop_faithful_removed lower _ ipv4 ipv6 _ d hr (Or.inr (Or.inl ⟨h4, rfl⟩)) _
      (List.mem_cons_self _ _) (fun e he h => ?_) (fun e _ _ => by simp) _ _
    rcases List.mem_cons.1 he with rfl | he
    · rw [h4] at h; cases h
    · simpa using fun h2 => hfree e he h h2.symm
  · intro h6 hfree
    refine updateLoop_faithful_removed lower _ ipv4 ipv6 _ d hr (Or.inr (Or.inr ⟨h6, rfl⟩)) _
      (List.mem_cons_self _ _) (fun e _ _ => by simp) (fun e he h => ?_) _ _
    rcases List.mem_cons.1 he with rfl | he
    · rw [h6] at h; cases h
    · simpa using fun h2 => hfree e he h h2.symm

/-- Witness of C5: the entry `a.example.com` with IPv4 unset, IPv6 set and Replace set, against
a store holding an A and a CNAME record for it: the pass does not panic, the deletes issued
are those of A and CNAME, and neither record is left. -/
theorem conflict_cleanup_witness :
    (∃ e1 e2 e3,
      deletes (UpdateDomains Char.toLower
          (scenario [⟨"a.example.com", false, true, true⟩]) faithful "<nil>" "2001:db8::1"
          conflictStore).2 0
        = (if (⟨"a.example.com", false, true, true⟩ : Domain).Replace then
            (if (⟨"a.example.com", false, true, true⟩ : Domain).IPv4 then []
              else [.delete "example.com" "a.example.com" "A" e1]) ++
            (if (⟨"a.example.com", false, true, true⟩ : Domain).IPv6 then []
              else [.delete "example.com" "a.example.com" "AAAA" e2]) ++
            [.delete "example.com" "a.example.com" "CNAME" e3]
          else []) ∨
      (¬ Completed (UpdateDomains Char.toLower
          (scenario [⟨"a.example.com", false, true, true⟩]) faithful "<nil>" "2001:db8::1"
          conflictStore).2 ∧
        deletes (UpdateDomains Char.toLower
          (scenario [⟨"a.example.com", false, true, true⟩]) faithful "<nil>" "2001:db8::1"
          conflictStore).2 0 = [])) ∧
    Completed (UpdateDomains Char.toLower
      (scenario [⟨"a.example.com", false, true, true⟩]) faithful "<nil>" "2001:db8::1"
      conflictStore).2 ∧
    conflictStore ("example.com", "a.example.com", "A") ≠ none ∧
    conflictStore ("example.com", "a.example.com", "CNAME") ≠ none ∧
    (UpdateDomains Char.toLower (scenario [⟨"a.example.com", false, true, true⟩]) faithful
      "<nil>" "2001:db8::1" conflictStore).1 ("example.com", "a.example.com", "CNAME") = none ∧
    (UpdateDomains Char.toLower (scenario [⟨"a.example.com", false, true, true⟩]) faithful
      "<nil>" "2001:db8::1" conflictStore).1 ("example.com", "a.example.com", "A") = none :=
  ⟨(conflict_cleanup Char.toLower (scenario [⟨"a.example.com", false, true, true⟩]) "<nil>"
      "2001:db8::1").1 Store faithful conflictStore 0 ⟨"a.example.com", false, true, true⟩
      (by decide),
   by decide, by decide, by decide,
   ((conflict_cleanup Char.toLower (scenario [⟨"a.example.com", false, true, true⟩]) "<nil>"
      "2001:db8::1").2 conflictStore [] [] ⟨"a.example.com", false, true, true⟩ rfl rfl).1,
   ((conflict_cleanup Char.toLower (scenario [⟨"a.example.com", false, true, true⟩]) "<nil>"
      "2001:db8::1").2 conflictStore [] [] ⟨"a.example.com", false, true, true⟩ rfl rfl).2.1
      rfl (by decide)⟩

/-- Counterexample to C5 as stated, in two runs.  (1) The list names `a.example.com` twice,
first with IPv4 unset and Replace set, then with IPv4 set.  The store holds an A record for the
name; the first entry deletes it, the second finds it missing and creates it again, so after
the pass an A record exists under the name of an entry with Replace set and IPv4 unset.
(2) The entry `a.example.com` has IPv4 and Replace set and the read of its A record returns a
record whose one answer is the nil pointer: the pass panics at line 106 and the entry issues no
delete, not even that of CNAME. -/
theorem conflict_cleanup_counterexample :
    ((⟨"a.example.com", false, false, true⟩ : Domain)
      ∈ (scenario [⟨"a.example.com", false, false, true⟩,
          ⟨"a.example.com", true, false, false⟩]).Domains ∧
    (conflictStore ("example.com", "a.example.com", "A")).map Subtype.val
      = some ⟨"id-17", "example.com", "a.example.com", "A", 60, [some ⟨["9.9.9.9"]⟩]⟩ ∧
    (UpdateDomains Char.toLower (scenario [⟨"a.example.com", false, false, true⟩,
        ⟨"a.example.com", true, false, false⟩]) faithful "1.2.3.4" "<nil>" conflictStore).2
      = [⟨0, .delete "example.com" "a.example.com" "A" none⟩,
         ⟨0, .delete "example.com" "a.example.com" "AAAA" (some .ErrRecordMissing)⟩,
         ⟨0, .delete "example.com" "a.example.com" "CNAME" none⟩,
         ⟨1, .get "example.com" "a.example.com" "A" (.error .ErrRecordMissing)⟩,
         ⟨1, .create ⟨"", "example.com", "a.example.com", "A", 60, [some ⟨["1.2.3.4"]⟩]⟩
            none⟩] ∧
    ((UpdateDomains Char.toLower (scenario [⟨"a.example.com", false, false, true⟩,
        ⟨"a.example.com", true, false, false⟩]) faithful "1.2.3.4" "<nil>" conflictStore).1
        ("example.com", "a.example.com", "A")).map Subtype.val
      = some ⟨"", "example.com", "a.example.com", "A", 60, [some ⟨["1.2.3.4"]⟩]⟩) ∧
    ((scenario [⟨"a.example.com", true, false, true⟩]).Domains[0]?
      = some ⟨"a.example.com", true, false, true⟩ ∧
    (UpdateDomains Char.toLower (scenario [⟨"a.example.com", true, false, true⟩])
        nullAnswerClient "1.2.3.4" "<nil>" ()).2
      = [⟨0, .get "example.com" "a.example.com" "A"
            (.ok ⟨"id-17", "example.com", "a.example.com", "A", 3600, [none]⟩)⟩,
         ⟨0, .panic⟩] ∧
    deletes (UpdateDomains Char.toLower (scenario [⟨"a.example.com", true, false, true⟩])
        nullAnswerClient "1.2.3.4" "<nil>" ()).2 0 = []) := by
  refine ⟨by decide, by decide⟩

/-! ## Idempotence -/

theorem updateDomain_faithful_stable (lower : Char → Char) (zone ipv4 ipv6 : String)
    (d : Domain) (s : Store) (h : Settled zone ipv4 ipv6 d s) :
    (updateDomain lower faithful zone ipv4 ipv6 d s).1 = s ∧
    (∀ o ∈ (updateDomain lower faithful zone ipv4 ipv6 d s).2, o.quiet) ∧
    (d.Replace = false → ∀ o ∈ (updateDomain lower faithful zone ipv4 ipv6 d s).2,
      o.isDelete = false) := by
  rcases d with ⟨name, v4, v6, repl⟩
  obtain ⟨hA, hB, hR⟩ := h
  simp only at hA hB hR
  have sA : v4 = true → ∃ r : Stored, syncRecord lower faithful zone name "A" ipv4 ⟨[ipv4]⟩ s
      = (s, [.get zone name "A" (.ok r.val)]) := fun h => by
    obtain ⟨r, hr, hd⟩ := hA h
    exact ⟨r, syncRecord_faithful_stable lower zone name "A" ipv4 s r hr hd⟩
  have sB : v6 = true → ∃ r : Stored, syncRecord lower faithful zone name "AAAA" ipv6 ⟨[ipv6]⟩ s
      = (s, [.get zone name "AAAA" (.ok r.val)]) := fun h => by
    obtain ⟨r, hr, hd⟩ := hB h
    exact ⟨r, syncRecord_faithful_stable lower zone name "AAAA" ipv6 s r hr hd⟩
  have rC : repl = true → removeRecord faithful zone name "CNAME" s
      = (s, [.delete zone name "CNAME" (some .ErrRecordMissing)]) := fun h =>
    removeRecord_faithful_stable zone name "CNAME" s (hR h).1
  have rA : repl = true → v4 = false → removeRecord faithful zone name "A" s
      = (s, [.delete zone name "A" (some .ErrRecordMissing)]) := fun h h4 =>
    removeRecord_faithful_stable zone name "A" s ((hR h).2.1 h4)
  have rB : repl = true → v6 = false → removeRecord faithful zone name "AAAA" s
      = (s, [.delete zone name "AAAA" (some .ErrRecordMissing)]) := fun h h6 =>
    removeRecord_faithful_stable zone name "AAAA" s ((hR h).2.2 h6)
  cases v4 <;> cases v6 <;> cases repl <;>
    simp only [updateDomain, andThen_apply, whenB, NewAv4Answer, NewAv6Answer, Bool.not_true,
      Bool.not_false, if_true, if_false, Bool.false_eq_true, true_implies, forall_const] at * <;>
    (try obtain ⟨r4, sA⟩ := sA) <;> (try obtain ⟨r6, sB⟩ := sB) <;>
    simp [*, Op.quiet, Op.isDelete, panicked]

theorem updateDomain_faithful_settles (lower : Char → Char) (zone ipv4 ipv6 : String)
    (d : Domain) (s : Store) (hb4 : BracketFree ipv4) (hb6 : BracketFree ipv6)
    (hn : hasZoneSuffix lower d.Name zone = true) :
    Settled zone ipv4 ipv6 d (updateDomain lower faithful zone ipv4 ipv6 d s).1 := by
  have hnA := NewRecord_domain_of_suffix lower zone d.Name "A" hn
  have hnB := NewRecord_domain_of_suffix lower zone d.Name "AAAA" hn
  refine ⟨fun h4 => updateDomain_faithful_syncA lower zone ipv4 ipv6 d s hb4 h4 hnA,
    fun h6 => updateDomain_faithful_syncAAAA lower zone ipv4 ipv6 d s hb6 h6 hnB,
    fun hr => ⟨?_, fun h4 => ?_, fun h6 => ?_⟩⟩
  · exact updateDomain_faithful_none lower zone ipv4 ipv6 d s _ (fun _ => by simp)
      (fun _ => by simp) (Or.inr ⟨hr, Or.inl rfl⟩)
  · exact updateDomain_faithful_none lower zone ipv4 ipv6 d s _ (fun h => by simp [h4] at h)
      (fun _ => by simp) (Or.inr ⟨hr, Or.inr (Or.inl ⟨h4, rfl⟩)⟩)
  · exact updateDomain_faithful_none lower zone ipv4 ipv6 d s _ (fun _ => by simp)
      (fun h => by simp [h6] at h) (Or.inr ⟨hr, Or.inr (Or.inr ⟨h6, rfl⟩)⟩)

theorem updateDomain_faithful_keeps (lower : Char → Char) (zone ipv4 ipv6 : String)
    (d e : Domain) (s : Store) (hb4 : BracketFree ipv4) (hb6 : BracketFree ipv6)
    (hn : hasZoneSuffix lower d.Name zone = true) (hag : Agree d e) (he : Settled zone ipv4 ipv6 e s) :
    Settled zone ipv4 ipv6 e (updateDomain lower faithful zone ipv4 ipv6 d s).1 := by
  have hnA := NewRecord_domain_of_suffix lower zone d.Name "A" hn
  have hnB := NewRecord_domain_of_suffix lower zone d.Name "AAAA" hn
  obtain ⟨hA, hB, hR⟩ := he
  by_cases hname : d.Name = e.Name
  · obtain ⟨hag1, hag2⟩ := hag hname
    refine ⟨fun h4 => ?_, fun h6 => ?_, fun hr => ⟨?_, fun h4 => ?_, fun h6 => ?_⟩⟩
    · by_cases hd4 : d.IPv4 = true
      · rw [← hname]
        exact updateDomain_faithful_syncA lower zone ipv4 ipv6 d s hb4 hd4 hnA
      · rw [updateDomain_faithful_frame lower zone ipv4 ipv6 d s _ (fun h => absurd h hd4)
          (fun _ => by simp) (fun _ => by simp)
          (fun hr _ => absurd ((hag2 hr).1 h4) hd4) (fun _ _ => by simp)]
        exact hA h4
    · by_cases hd6 : d.IPv6 = true
      · rw [← hname]
        exact updateDomain_faithful_syncAAAA lower zone ipv4 ipv6 d s hb6 hd6 hnB
      · rw [updateDomain_faithful_frame lower zone ipv4 ipv6 d s _ (fun _ => by simp)
          (fun h => absurd h hd6) (fun _ => by simp) (fun _ _ => by simp)
          (fun hr _ => absurd ((hag2 hr).2 h6) hd6)]
        exact hB h6
    · exact updateDomain_faithful_none lower zone ipv4 ipv6 d s _ (fun _ => by simp)
        (fun _ => by simp) (Or.inl (hR hr).1)
    · exact updateDomain_faithful_none lower zone ipv4 ipv6 d s _
        (fun h => by simp [(hag1 hr).1 h] at h4) (fun _ => by simp) (Or.inl ((hR hr).2.1 h4))
    · exact updateDomain_faithful_none lower zone ipv4 ipv6 d s _ (fun _ => by simp)
        (fun h => by simp [(hag1 hr).2 h] at h6) (Or.inl ((hR hr).2.2 h6))
  · have hne : e.Name ≠ d.Name := fun h => hname h.symm
    have fr : ∀ t, (updateDomain lower faithful zone ipv4 ipv6 d s).1 (zone, e.Name, t)
        = s (zone, e.Name, t) := fun t =>
      updateDomain_faithful_frame lower zone ipv4 ipv6 d s _ (fun _ => by simp [hnA, hne])
        (fun _ => by simp [hnB, hne]) (fun _ => by simp [hne]) (fun _ _ => by simp [hne])
        (fun _ _ => by simp [hne])
    unfold Settled
    simp only [fr]
    exact ⟨hA, hB, hR⟩

theorem updateLoop_faithful_settles (lower : Char → Char) (zone ipv4 ipv6 : String)
    (hb4 : BracketFree ipv4) (hb6 : BracketFree ipv6)
    (all : List Domain) (hnames : ∀ d ∈ all, hasZoneSuffix lower d.Name zone = true)
    (hagree : ∀ d ∈ all, ∀ e ∈ all, Agree d e) (ds : List Domain) (hsub : ∀ d ∈ ds, d ∈ all) :
    ∀ (i : Nat) (s : Store) (P : Domain → Prop),
      (∀ e ∈ all, P e → Settled zone ipv4 ipv6 e s) →
      ∀ e ∈ all, (P e ∨ e ∈ ds) →
        Settled zone ipv4 ipv6 e (updateLoop lower faithful zone ipv4 ipv6 ds i s).1 := by
  induction ds with
  | nil =>
    intro i s P hP e he h
    rcases h with h | h
    · exact hP e he h
    · simp at h
  | cons d ds ih =>
    intro i s P hP e he h
    have hd : d ∈ all := hsub d (List.mem_cons_self _ _)
    rw [updateLoop_faithful_cons]
    apply ih (fun x hx => hsub x (List.mem_cons_of_mem _ hx)) (i + 1)
      (updateDomain lower faithful zone ipv4 ipv6 d s).1 (fun x => P x ∨ x = d) ?_ e he
    · rcases h with h | h
      · exact Or.inl (Or.inl h)
      · rcases List.mem_cons.1 h with rfl | h
        · exact Or.inl (Or.inr rfl)
        · exact Or.inr h
    · intro x hx hPx
      rcases hPx with hPx | rfl
      · exact updateDomain_faithful_keeps lower zone ipv4 ipv6 d x s hb4 hb6 (hnames d hd)
          (hagree d hd x hx) (hP x hx hPx)
      · exact updateDomain_faithful_settles lower zone ipv4 ipv6 x s hb4 hb6 (hnames x hx)

theorem updateLoop_faithful_stable (lower : Char → Char) (zone ipv4 ipv6 : String)
    (s : Store) (ds : List Domain) (hs : ∀ d ∈ ds, Settled zone ipv4 ipv6 d s) :
    ∀ (i : Nat), (updateLoop lower faithful zone ipv4 ipv6 ds i s).1 = s ∧
      (∀ e ∈ (updateLoop lower faithful zone ipv4 ipv6 ds i s).2, e.op.quiet) ∧
      ((∀ d ∈ ds, d.Replace = false) →
        ∀ e ∈ (updateLoop lower faithful zone ipv4 ipv6 ds i s).2, e.op.isDelete = false) := by
  induction ds with
  | nil => intro i; simp [updateLoop]
  | cons d ds ih =>
    intro i
    obtain ⟨h1, h2, h3⟩ := updateDomain_faithful_stable lower zone ipv4 ipv6 d s
      (hs d (List.mem_cons_self _ _))
    obtain ⟨i1, i2, i3⟩ := ih (fun x hx => hs x (List.mem_cons_of_mem _ hx)) (i + 1)
    rw [updateLoop_faithful_cons]
    simp only [h1]
    refine ⟨i1, ?_, ?_⟩
    · intro e he
      rcases List.mem_append.1 he with he | he
      · obtain ⟨o, ho, rfl⟩ := List.mem_map.1 he
        exact h2 o ho
      · exact i2 e he
    · intro hrep e he
      rcases List.mem_append.1 he with he | he
      · obtain ⟨o, ho, rfl⟩ := List.mem_map.1 he
        exact h3 (hrep d (List.mem_cons_self _ _)) o ho
      · exact i3 (fun x hx => hrep x (List.mem_cons_of_mem _ hx)) e he

/-- C4 (amended): take a configuration in which every name ends with the zone (so that
`dns.NewRecord` keeps it) and in which no entry with Replace set removes a record type that
another entry of the same name wants, and two address texts that neither start nor end with a
square bracket (so that `Answer.String` gives them back; `IP.String` prints no other).  Run
`UpdateDomains` twice in a row, with the same addresses, against the store on which every call
takes effect.  The second run leaves the
store as the first run left it; every action of the second run is a read that finds a record or
a delete that finds its record already missing, so the second run issues no create and no
update; and when no entry has Replace set, it issues no delete either. -/
theorem second_pass_changes_nothing (lower : Char → Char) (configuration : Config)
    (ipv4 ipv6 : String) (s : Store) (hb4 : BracketFree ipv4) (hb6 : BracketFree ipv6)
    (hnames : ∀ d ∈ configuration.Domains,
      hasZoneSuffix lower d.Name configuration.Basic.Zone = true)
    (hagree : ∀ d ∈ configuration.Domains, ∀ e ∈ configuration.Domains,
      d.Name = e.Name → e.Replace = true →
        (d.IPv4 = true → e.IPv4 = true) ∧ (d.IPv6 = true → e.IPv6 = true)) :
    (UpdateDomains lower configuration faithful ipv4 ipv6
        (UpdateDomains lower configuration faithful ipv4 ipv6 s).1).1
      = (UpdateDomains lower configuration faithful ipv4 ipv6 s).1 ∧
    (∀ e ∈ (UpdateDomains lower configuration faithful ipv4 ipv6
        (UpdateDomains lower configuration faithful ipv4 ipv6 s).1).2,
      e.op.quiet ∧ ∀ t, e.op.isCreate t = false ∧ e.op.isUpdate t = false) ∧
    ((∀ d ∈ configuration.Domains, d.Replace = false) →
      ∀ e ∈ (UpdateDomains lower configuration faithful ipv4 ipv6
        (UpdateDomains lower configuration faithful ipv4 ipv6 s).1).2,
      e.op.isDelete = false) := by
  have hag : ∀ d ∈ configuration.Domains, ∀ e ∈ configuration.Domains, Agree d e :=
    fun d hd e he hname => ⟨hagree d hd e he hname, hagree e he d hd hname.symm⟩
  have hsettled : ∀ e ∈ configuration.Domains,
      Settled configuration.Basic.Zone ipv4 ipv6 e
        (UpdateDomains lower configuration faithful ipv4 ipv6 s).1 := fun e he =>
    updateLoop_faithful_settles lower configuration.Basic.Zone ipv4 ipv6 hb4 hb6
      configuration.Domains hnames hag configuration.Domains (fun _ h => h) 0 s (fun _ => False)
      (fun _ _ h => h.elim) e he (Or.inr he)
  obtain ⟨h1, h2, h3⟩ := updateLoop_faithful_stable lower configuration.Basic.Zone ipv4 ipv6
    (UpdateDomains lower configuration faithful ipv4 ipv6 s).1 configuration.Domains hsettled 0
  refine ⟨h1, fun e he => ⟨h2 e he, fun t => ?_⟩, h3⟩
  have hq := h2 e he
  rcases e with ⟨i, o⟩
  cases o <;> simp_all [Op.quiet, Op.isCreate, Op.isUpdate]

/-- Witness of C4: the theorem at the configuration `agreeing`, from a store that holds a
stale A record and a CNAME record for `a.example.com`. -/
theorem second_pass_changes_nothing_witness :
    BracketFree "1.2.3.4" ∧ BracketFree "2001:db8::1" ∧
    (UpdateDomains Char.toLower agreeing faithful "1.2.3.4" "2001:db8::1"
        (UpdateDomains Char.toLower agreeing faithful "1.2.3.4" "2001:db8::1" conflictStore).1).1
      = (UpdateDomains Char.toLower agreeing faithful "1.2.3.4" "2001:db8::1" conflictStore).1 ∧
    (∀ e ∈ (UpdateDomains Char.toLower agreeing faithful "1.2.3.4" "2001:db8::1"
        (UpdateDomains Char.toLower agreeing faithful "1.2.3.4" "2001:db8::1" conflictStore).1).2,
      e.op.quiet ∧ ∀ t, e.op.isCreate t = false ∧ e.op.isUpdate t = false) ∧
    ((∀ d ∈ agreeing.Domains, d.Replace = false) →
      ∀ e ∈ (UpdateDomains Char.toLower agreeing faithful "1.2.3.4" "2001:db8::1"
        (UpdateDomains Char.toLower agreeing faithful "1.2.3.4" "2001:db8::1" conflictStore).1).2,
      e.op.isDelete = false) :=
  ⟨by decide, by decide,
    second_pass_changes_nothing Char.toLower agreeing "1.2.3.4" "2001:db8::1" conflictStore
      (by decide) (by decide) (by decide) (by decide)⟩

/-- Counterexample to C4 as stated, in four runs against the store on which every call takes
effect, each started from the empty store.  (1) With Replace set the second run issues the
deletes again.  (2) When the list names `a.example.com` twice, once wanting A and once
removing A, the second run creates the A record again and deletes it again.  (3) For the name
`www`, which `dns.NewRecord` extends with the zone, the record is read under `www` and created
under `www.example.com`, so the second run issues the create again.  (4) For an address text
in square brackets (a text `IP.String` never prints, so `main` never passes it),
`Answer.String` gives the text without the brackets, the record the first run created does
not compare equal, and the second run issues an update. -/
theorem second_pass_counterexample :
    (UpdateDomains Char.toLower (scenario [⟨"a.example.com", true, false, true⟩]) faithful
        "1.2.3.4" "<nil>"
        (UpdateDomains Char.toLower (scenario [⟨"a.example.com", true, false, true⟩]) faithful
          "1.2.3.4" "<nil>" Store.empty).1).2
      = [⟨0, .get "example.com" "a.example.com" "A"
            (.ok ⟨"", "example.com", "a.example.com", "A", 60, [some ⟨["1.2.3.4"]⟩]⟩)⟩,
         ⟨0, .delete "example.com" "a.example.com" "AAAA" (some .ErrRecordMissing)⟩,
         ⟨0, .delete "example.com" "a.example.com" "CNAME" (some .ErrRecordMissing)⟩] ∧
    (UpdateDomains Char.toLower (scenario [⟨"a.example.com", true, false, false⟩,
          ⟨"a.example.com", false, false, true⟩]) faithful "1.2.3.4" "<nil>"
        (UpdateDomains Char.toLower (scenario [⟨"a.example.com", true, false, false⟩,
          ⟨"a.example.com", false, false, true⟩]) faithful "1.2.3.4" "<nil>" Store.empty).1).2
      = [⟨0, .get "example.com" "a.example.com" "A" (.error .ErrRecordMissing)⟩,
         ⟨0, .create ⟨"", "example.com", "a.example.com", "A", 60, [some ⟨["1.2.3.4"]⟩]⟩ none⟩,
         ⟨1, .delete "example.com" "a.example.com" "A" none⟩,
         ⟨1, .delete "example.com" "a.example.com" "AAAA" (some .ErrRecordMissing)⟩,
         ⟨1, .delete "example.com" "a.example.com" "CNAME" (some .ErrRecordMissing)⟩] ∧
    (UpdateDomains Char.toLower (scenario [⟨"www", true, false, false⟩]) faithful
        "1.2.3.4" "<nil>"
        (UpdateDomains Char.toLower (scenario [⟨"www", true, false, false⟩]) faithful
          "1.2.3.4" "<nil>" Store.empty).1).2
      = [⟨0, .get "example.com" "www" "A" (.error .ErrRecordMissing)⟩,
         ⟨0, .create ⟨"", "example.com", "www.example.com", "A", 60, [some ⟨["1.2.3.4"]⟩]⟩
            (some (.other "record already exists"))⟩,
         ⟨0, .print "Failed to create missing DNS record for www: record already exists\n"⟩] ∧
    (UpdateDomains Char.toLower (scenario [⟨"a.example.com", true, false, false⟩]) faithful
        "[1.2.3.4]" "<nil>"
        (UpdateDomains Char.toLower (scenario [⟨"a.example.com", true, false, false⟩]) faithful
          "[1.2.3.4]" "<nil>" Store.empty).1).2
      = [⟨0, .get "example.com" "a.example.com" "A"
            (.ok ⟨"", "example.com", "a.example.com", "A", 60, [some ⟨["[1.2.3.4]"]⟩]⟩)⟩,
         ⟨0, .update ⟨"", "example.com", "a.example.com", "A", 60, [some ⟨["[1.2.3.4]"]⟩]⟩
            none⟩] := by
  refine ⟨by decide, by decide, by decide, by decide⟩

/-! ## The resolver -/

theorem foldl_set_length (f : IP → Nat → Nat) (g : Nat → Nat) (js : List Nat) :
    ∀ (ip : IP), (js.foldl (fun q j => q.set (g j) (f q j)) ip).length = ip.length := by
  induction js with
  | nil => intro ip; rfl
  | cons j js ih => intro ip; simp [List.foldl_cons, ih]

theorem expandEllipsis_length (ip : IP) (i : Nat) (ellipsis : Int) :
    expandEllipsis ip i ellipsis = [] ∨ (expandEllipsis ip i ellipsis).length = ip.length := by
  unfold expandEllipsis
  split_ifs
  · exact Or.inl rfl
  · right
    simp only
    rw [foldl_set_length (fun _ _ => 0) (fun j => j),
      foldl_set_length (fun q j => q.getD j 0) (fun j => j + (16 - i))]
  · exact Or.inl rfl
  · exact Or.inr rfl

theorem parseIPv6Loop_length (k : Nat) :
    ∀ (s : List Char) (ip : IP) (ellipsis : Int) (r : List Char × IP × Nat × Int),
      parseIPv6Loop k s ip ellipsis = some r → r.2.1.length = ip.length := by
  induction k with
  | zero =>
    intro s ip e r h
    simp only [parseIPv6Loop, Option.some.injEq] at h
    subst h; rfl
  | succ k ih =>
    intro s ip e r h
    unfold parseIPv6Loop at h
    simp only at h
    split_ifs at h <;>
      first
      | (cases h <;> simp)
      | (have hlen := ih _ _ _ _ h; simpa using hlen)

theorem parseIPv6_finish_length (o : Option (List Char × IP × Nat × Int)) :
    (∀ r, o = some r → r.2.1.length = 16) →
    (match o with
      | none => []
      | some (s1, ip, i, ellipsis) =>
        if s1.length ≠ 0 then [] else expandEllipsis ip i ellipsis) = ([] : IP) ∨
    (match o with
      | none => []
      | some (s1, ip, i, ellipsis) =>
        if s1.length ≠ 0 then [] else expandEllipsis ip i ellipsis).length = 16 := by
  intro ho
  rcases o with _ | ⟨s1, ip, i, e⟩
  · exact Or.inl rfl
  · have hl := ho _ rfl
    simp only at hl ⊢
    split_ifs
    · exact Or.inl rfl
    · rcases expandEllipsis_length ip i e with h | h
      · exact Or.inl h
      · exact Or.inr (h.trans hl)

theorem parseIPv6_length (s : List Char) : parseIPv6 s = [] ∨ (parseIPv6 s).length = 16 := by
  unfold parseIPv6
  simp only
  split_ifs
  · right; simp
  all_goals
    apply parseIPv6_finish_length
    intro r hr
    have hl := parseIPv6Loop_length _ _ _ _ _ hr
    simpa using hl

theorem parseIPv4_length (s : List Char) : parseIPv4 s = [] ∨ (parseIPv4 s).length = 16 := by
  unfold parseIPv4
  split
  · right; simp [IPv4]
  · exact Or.inl rfl

theorem ParseIP_length (s : String) : ParseIP s = [] ∨ (ParseIP s).length = 16 := by
  unfold ParseIP
  split
  · exact parseIPv4_length _
  · exact parseIPv6_length _
  · exact Or.inl rfl

theorem string_length_zero (s : String) : s.length = 0 ↔ s = "" := by
  rcases s with ⟨l⟩
  cases l with
  | nil => simp [String.length]
  | cons c cs =>
    simp only [String.length, List.length_cons, Nat.add_one_ne_zero, false_iff]
    intro h
    have := congrArg String.data h
    simp at this

theorem To4_nil : To4 [] = [] := by decide

theorem ParseIP_empty : ParseIP "" = [] := by decide

/-- C9 (amended): `GetIPAddress` fails whenever the body of the IPv4 endpoint does not parse
to an address that `To4` converts (a dotted four-octet literal or an IPv6 literal of an
IPv4-mapped address), and fails whenever the body of the IPv6 endpoint parses to an address
that `To4` converts.  So whenever it succeeds, both lookups answered, the IPv4 result is the
16-byte address parsed from the IPv4 body and `To4` converts it, and, when the IPv6 body is not
empty, the IPv6 result is the 16-byte address parsed from it and `To4` does not convert it. -/
theorem resolver_checks_families {ω : Type} (net : Net ω) (addrs : QueryAddress) (w : ω) :
    (∀ b4 w1, net.Get addrs.IPv4 w = (.ok (.ok b4), w1) → To4 (ParseIP b4) = [] →
      ∃ e, (GetIPAddress net addrs w).result = .error e) ∧
    (∀ b4 w1 b6 w2, net.Get addrs.IPv4 w = (.ok (.ok b4), w1) →
      net.Get addrs.IPv6 w1 = (.ok (.ok b6), w2) → To4 (ParseIP b6) ≠ [] →
      ∃ e, (GetIPAddress net addrs w).result = .error e) ∧
    (∀ v4 v6, (GetIPAddress net addrs w).result = .ok (v4, v6) →
      ∃ b4 w1 b6 w2, net.Get addrs.IPv4 w = (.ok (.ok b4), w1) ∧
        net.Get addrs.IPv6 w1 = (.ok (.ok b6), w2) ∧
        v4 = ParseIP b4 ∧ v4.length = 16 ∧ To4 v4 ≠ [] ∧
        (b6 ≠ "" → v6 = ParseIP b6 ∧ v6.length = 16 ∧ To4 v6 = [])) := by
  refine ⟨?_, ?_, ?_⟩
  · intro b4 w1 h4 hto
    unfold GetIPAddress
    simp only [h4, UnmarshalText]
    by_cases hl : b4.length = 0
    · simp [hl, To4_nil]
    · by_cases hp : ParseIP b4 = []
      · simp [hl, hp]
      · simp [hl, hp, hto]
  · intro b4 w1 b6 w2 h4 h6 hto
    have hne : b6.length ≠ 0 := by
      intro h
      rw [(string_length_zero b6).1 h, ParseIP_empty, To4_nil] at hto
      exact hto rfl
    have hp6 : ParseIP b6 ≠ [] := by
      intro h
      rw [h, To4_nil] at hto
      exact hto rfl
    unfold GetIPAddress
    simp only [h4, UnmarshalText]
    by_cases hl : b4.length = 0
    · simp [hl, To4_nil]
    · by_cases hp : ParseIP b4 = []
      · simp [hl, hp]
      · by_cases h4to : To4 (ParseIP b4) = []
        · simp [hl, hp, h4to]
        · simp [hl, hp, h4to, getIPv6, h6, UnmarshalText, hne, hp6, hto]
  · intro v4 v6 h
    unfold GetIPAddress at h
    rcases h4 : net.Get addrs.IPv4 w with ⟨r4, w1⟩
    rw [h4] at h
    rcases r4 with e | (e | b4)
    · simp at h
    · simp at h
    · simp only [UnmarshalText] at h
      by_cases hl : b4.length = 0
      · simp [hl, To4_nil] at h
      · by_cases hp : ParseIP b4 = []
        · simp [hl, hp] at h
        · by_cases h4to : To4 (ParseIP b4) = []
          · simp [hl, hp, h4to] at h
          · simp only [hl, hp, h4to, if_false] at h
            unfold getIPv6 at h
            rcases h6 : net.Get addrs.IPv6 w1 with ⟨r6, w2⟩
            rw [h6] at h
            rcases r6 with e | (e | b6)
            · simp at h
            · simp at h
            · simp only [UnmarshalText] at h
              have hlen4 : (ParseIP b4).length = 16 := by
                rcases ParseIP_length b4 with h0 | h0
                · exact absurd h0 hp
                · exact h0
              by_cases hl6 : b6.length = 0
              · simp [hl6, To4_nil] at h
                refine ⟨b4, w1, b6, w2, rfl, h6, h.1.symm, h.1 ▸ hlen4, h.1 ▸ h4to, ?_⟩
                intro hne
                exact absurd ((string_length_zero b6).1 hl6) hne
              · by_cases hp6 : ParseIP b6 = []
                · simp [hl6, hp6] at h
                · by_cases h6to : To4 (ParseIP b6) = []
                  · simp [hl6, hp6, h6to] at h
                    refine ⟨b4, w1, b6, w2, rfl, h6, h.1.symm, h.1 ▸ hlen4, h.1 ▸ h4to, ?_⟩
                    intro _
                    refine ⟨h.2.symm, ?_, h.2 ▸ h6to⟩
                    rcases ParseIP_length b6 with h0 | h0
                    · exact absurd h0 hp6
                    · exact h.2 ▸ h0
                  · simp [hl6, hp6, h6to] at h

/-- Witness of C9: the IPv4 endpoint answers `2001:db8::1` and the resolver fails; the IPv4
endpoint answers `1.2.3.4`, the IPv6 endpoint answers `1.2.3.4` too, and the resolver fails;
the endpoints answer `1.2.3.4` and `2001:db8::1`, and the resolver returns the two addresses. -/
theorem resolver_checks_families_witness :
    (∃ e, (GetIPAddress (tableNet [(endpoints.IPv4, .ok (.ok "2001:db8::1")),
        (endpoints.IPv6, .ok (.ok "2001:db8::1"))]) endpoints ()).result = .error e) ∧
    (∃ e, (GetIPAddress (tableNet [(endpoints.IPv4, .ok (.ok "1.2.3.4")),
        (endpoints.IPv6, .ok (.ok "1.2.3.4"))]) endpoints ()).result = .error e) ∧
    (∃ b4 w1 b6 w2,
      (tableNet [(endpoints.IPv4, .ok (.ok "1.2.3.4")),
        (endpoints.IPv6, .ok (.ok "2001:db8::1"))]).Get endpoints.IPv4 () = (.ok (.ok b4), w1) ∧
      (tableNet [(endpoints.IPv4, .ok (.ok "1.2.3.4")),
        (endpoints.IPv6, .ok (.ok "2001:db8::1"))]).Get endpoints.IPv6 w1 = (.ok (.ok b6), w2) ∧
      IPv4 1 2 3 4 = ParseIP b4 ∧ (IPv4 1 2 3 4).length = 16 ∧ To4 (IPv4 1 2 3 4) ≠ [] ∧
      (b6 ≠ "" →
        [0x20, 1, 0xd, 0xb8, 0, 0, 0, 0, 0, 0, 0, 0, 0, 0, 0, 1] = ParseIP b6 ∧
        ([0x20, 1, 0xd, 0xb8, 0, 0, 0, 0, 0, 0, 0, 0, 0, 0, 0, 1] : IP).length = 16 ∧
        To4 [0x20, 1, 0xd, 0xb8, 0, 0, 0, 0, 0, 0, 0, 0, 0, 0, 0, 1] = [])) :=
  ⟨(resolver_checks_families (tableNet [(endpoints.IPv4, .ok (.ok "2001:db8::1")),
      (endpoints.IPv6, .ok (.ok "2001:db8::1"))]) endpoints ()).1 "2001:db8::1" ()
      (by decide) (by decide),
   (resolver_checks_families (tableNet [(endpoints.IPv4, .ok (.ok "1.2.3.4")),
      (endpoints.IPv6, .ok (.ok "1.2.3.4"))]) endpoints ()).2.1 "1.2.3.4" () "1.2.3.4" ()
      (by decide) (by decide) (by decide),
   (resolver_checks_families (tableNet [(endpoints.IPv4, .ok (.ok "1.2.3.4")),
      (endpoints.IPv6, .ok (.ok "2001:db8::1"))]) endpoints ()).2.2 (IPv4 1 2 3 4)
      [0x20, 1, 0xd, 0xb8, 0, 0, 0, 0, 0, 0, 0, 0, 0, 0, 0, 1] (by decide)⟩

/-- Counterexample to C9 as stated: the IPv4 endpoint answers `::ffff:102:304`, an IPv6
literal (of the IPv4-mapped address 1.2.3.4) that is not a dotted four-octet literal, and the
resolver succeeds with it as the IPv4 address. -/
theorem resolver_accepts_mapped_literal :
    parseIPv4 "::ffff:102:304".toList = [] ∧
    (GetIPAddress (tableNet [(endpoints.IPv4, .ok (.ok "::ffff:102:304")),
        (endpoints.IPv6, .ok (.ok "2001:db8::1"))]) endpoints ()).result
      = .ok (IPv4 1 2 3 4, [0x20, 1, 0xd, 0xb8, 0, 0, 0, 0, 0, 0, 0, 0, 0, 0, 0, 1]) := by
  decide

/-! ## Disabling an address family -/

theorem GetIPAddress_first_lookup {ω : Type} (net : Net ω) (addrs : QueryAddress) (w : ω) :
    (GetIPAddress net addrs w).lookups.head? = some addrs.IPv4 := by
  unfold GetIPAddress
  rcases net.Get addrs.IPv4 w with ⟨r4, w1⟩
  rcases r4 with e | (e | b4)
  · rfl
  · rfl
  · simp only
    split
    · rfl
    · split <;> rfl

theorem GetIPAddress_lookup_fails {ω : Type} (net : Net ω) (addrs : QueryAddress) (w : ω)
    (e : GoError) (h : (net.Get addrs.IPv4 w).1 = .error e) :
    (GetIPAddress net addrs w).result = .error e := by
  unfold GetIPAddress
  rcases hg : net.Get addrs.IPv4 w with ⟨r4, w1⟩
  rw [hg] at h
  simp only at h
  subst h
  rfl

/-- C8, the code at the failing inputs.  With the IPv4 endpoint empty and the IPv6 endpoint
answering `2001:db8::1`, `GetIPAddress` requests the empty URL, the request fails and
`GetIPAddress` returns that error.  With the IPv6 endpoint empty and the IPv4 endpoint answering
`1.2.3.4`, it requests both URLs and returns the error of the second request. -/
theorem empty_endpoint_is_requested :
    (GetIPAddress (tableNet [("", .error (.other "unsupported protocol scheme")),
        (endpoints.IPv6, .ok (.ok "2001:db8::1"))]) ⟨"", endpoints.IPv6⟩ ()).lookups = [""] ∧
    (GetIPAddress (tableNet [("", .error (.other "unsupported protocol scheme")),
        (endpoints.IPv6, .ok (.ok "2001:db8::1"))]) ⟨"", endpoints.IPv6⟩ ()).result
      = .error (.other "unsupported protocol scheme") ∧
    (GetIPAddress (tableNet [("", .error (.other "unsupported protocol scheme")),
        (endpoints.IPv4, .ok (.ok "1.2.3.4"))]) ⟨endpoints.IPv4, ""⟩ ()).lookups
      = [endpoints.IPv4, ""] ∧
    (GetIPAddress (tableNet [("", .error (.other "unsupported protocol scheme")),
        (endpoints.IPv4, .ok (.ok "1.2.3.4"))]) ⟨endpoints.IPv4, ""⟩ ()).result
      = .error (.other "unsupported protocol scheme") := by
  decide

/-! ## The daemon: fatal at bootstrap, soft in the steady state -/

theorem passes_append (a b : List Action) : passes (a ++ b) = passes a ++ passes b := by
  induction a with
  | nil => rfl
  | cons x a ih => cases x <;> simp [passes, ih]

theorem resolutions_append (a b : List Action) :
    resolutions (a ++ b) = resolutions a ++ resolutions b := by
  induction a with
  | nil => rfl
  | cons x a ih => cases x <;> simp [resolutions, ih]

theorem run_exited {ω : Type} (lower : Char → Char) (env : Env ω) (configuration : Config)
    (n : Nat) : ∀ (d : Daemon ω) (status : Int), d.phase = .Exited status →
      run lower env configuration n d = d := by
  induction n with
  | zero => intro d status h; rfl
  | succ n ih =>
    intro d status h
    have hs : step lower env configuration d = d := by simp [step, h]
    simp only [run, hs]
    exact ih d status h

/-- C7: the daemon as a step function over the phases Bootstrap and SteadyState, with the
outcome `Exited status`.  (1) If the resolution fails in Bootstrap, the process exits with the
status -1, which is not zero, and no reconciliation pass is run then or in any later step.
(2) If the resolution fails in SteadyState, the process stays in SteadyState, the step runs no
pass (nothing is run with the addresses of an earlier cycle) and leaves the world as the
failed lookups left it, and the next step resolves again.  (3) If the resolution succeeds in
SteadyState, the step runs exactly one pass, with the text of the addresses just resolved; it
stays in SteadyState when the pass completes, and when the pass panics the process ends. -/
theorem daemon_failure_policy {ω : Type} (lower : Char → Char) (env : Env ω)
    (configuration : Config) (d : Daemon ω) :
    (d.phase = .Bootstrap → ∀ err,
      (GetIPAddress env.net configuration.QueryAddresses d.world).result = .error err →
      (step lower env configuration d).phase = .Exited exitStatus ∧ exitStatus ≠ 0 ∧
      ∀ n, (run lower env configuration n (step lower env configuration d)).phase
          = .Exited exitStatus ∧
        passes (run lower env configuration n (step lower env configuration d)).done
          = passes d.done) ∧
    (d.phase = .SteadyState → ∀ err,
      (GetIPAddress env.net configuration.QueryAddresses d.world).result = .error err →
      (step lower env configuration d).phase = .SteadyState ∧
      passes (step lower env configuration d).done = passes d.done ∧
      (step lower env configuration d).world
        = (GetIPAddress env.net configuration.QueryAddresses d.world).world ∧
      resolutions (step lower env configuration d).done = resolutions d.done ++ [.error err] ∧
      resolutions (step lower env configuration (step lower env configuration d)).done
        = resolutions d.done ++ [.error err,
            (GetIPAddress env.net configuration.QueryAddresses
              (step lower env configuration d).world).result]) ∧
    (d.phase = .SteadyState → ∀ v4 v6,
      (GetIPAddress env.net configuration.QueryAddresses d.world).result = .ok (v4, v6) →
      (step lower env configuration d).phase
        = phaseAfter (UpdateDomains lower configuration env.client (ipString v4) (ipString v6)
            (GetIPAddress env.net configuration.QueryAddresses d.world).world).2 ∧
      (Completed (UpdateDomains lower configuration env.client (ipString v4) (ipString v6)
          (GetIPAddress env.net configuration.QueryAddresses d.world).world).2 →
        (step lower env configuration d).phase = .SteadyState) ∧
      passes (step lower env configuration d).done
        = passes d.done ++ [(ipString v4, ipString v6)] ∧
      (step lower env configuration d).done
        = d.done ++ [.sleep configuration.Basic.Interval,
            .resolve (GetIPAddress env.net configuration.QueryAddresses d.world).lookups
              (.ok (v4, v6)),
            .pass (ipString v4) (ipString v6)
              (UpdateDomains lower configuration env.client (ipString v4) (ipString v6)
                (GetIPAddress env.net configuration.QueryAddresses d.world).world).2] ∧
      (step lower env configuration d).world
        = (UpdateDomains lower configuration env.client (ipString v4) (ipString v6)
            (GetIPAddress env.net configuration.QueryAddresses d.world).world).1) := by
  have hcycle : ∀ (x : Daemon ω), x.phase = .SteadyState →
      resolutions (step lower env configuration x).done
        = resolutions x.done ++
          [(GetIPAddress env.net configuration.QueryAddresses x.world).result] := by
    intro x hx
    simp only [step, hx, cycle]
    rcases hr : (GetIPAddress env.net configuration.QueryAddresses x.world).result with e | ⟨a, b⟩
    · simp [resolutions_append, resolutions]
    · simp [resolutions_append, resolutions]
  refine ⟨fun hb err hres => ?_, fun hs err hres => ?_, fun hs v4 v6 hres => ?_⟩
  · have hstep : step lower env configuration d
        = ⟨.Exited exitStatus, (GetIPAddress env.net configuration.QueryAddresses d.world).world,
            d.done ++ [.resolve
              (GetIPAddress env.net configuration.QueryAddresses d.world).lookups (.error err),
              .print ("Failed to get IP address: " ++ err.Error ++ "\n")]⟩ := by
      simp [step, hb, bootstrap, hres]
    refine ⟨by rw [hstep], by decide, fun n => ?_⟩
    rw [run_exited lower env configuration n _ exitStatus (by rw [hstep]), hstep]
    simp [passes_append, passes]
  · have hstep : step lower env configuration d
        = ⟨.SteadyState, (GetIPAddress env.net configuration.QueryAddresses d.world).world,
            d.done ++ [.sleep configuration.Basic.Interval, .resolve
              (GetIPAddress env.net configuration.QueryAddresses d.world).lookups (.error err),
              .print ("Failed to get IP address: " ++ err.Error ++ "\n")]⟩ := by
      simp [step, hs, cycle, hres]
    have h1 : resolutions (step lower env configuration d).done
        = resolutions d.done ++ [.error err] := by
      rw [hcycle d hs, hres]
    refine ⟨by rw [hstep], by rw [hstep]; simp [passes_append, passes], by rw [hstep], h1, ?_⟩
    rw [hcycle _ (by rw [hstep]), h1]
    simp
  · have hstep : step lower env configuration d
        = ⟨phaseAfter (UpdateDomains lower configuration env.client (ipString v4) (ipString v6)
              (GetIPAddress env.net configuration.QueryAddresses d.world).world).2,
            (UpdateDomains lower configuration env.client (ipString v4) (ipString v6)
              (GetIPAddress env.net configuration.QueryAddresses d.world).world).1,
            d.done ++ [.sleep configuration.Basic.Interval,
              .resolve (GetIPAddress env.net configuration.QueryAddresses d.world).lookups
                (.ok (v4, v6)),
              .pass (ipString v4) (ipString v6)
                (UpdateDomains lower configuration env.client (ipString v4) (ipString v6)
                  (GetIPAddress env.net configuration.QueryAddresses d.world).world).2]⟩ := by
      simp [step, hs, cycle, hres]
    refine ⟨by rw [hstep], fun hc => ?_, by rw [hstep]; simp [passes_append, passes],
      by rw [hstep], by rw [hstep]⟩
    rw [hstep]
    simp only [phaseAfter, (Completed_iff _).1 hc]
    rfl

/-- Witness of C7: the three parts of the theorem at concrete daemons, with the lookups
failing (parts 1 and 2) and answering (part 3). -/
theorem daemon_failure_policy_witness :
    ((step Char.toLower failingEnv daemonConfig ⟨.Bootstrap, Store.empty, []⟩).phase
        = .Exited exitStatus ∧ exitStatus ≠ 0 ∧
      ∀ n, (run Char.toLower failingEnv daemonConfig n
          (step Char.toLower failingEnv daemonConfig ⟨.Bootstrap, Store.empty, []⟩)).phase
          = .Exited exitStatus ∧
        passes (run Char.toLower failingEnv daemonConfig n
          (step Char.toLower failingEnv daemonConfig ⟨.Bootstrap, Store.empty, []⟩)).done
          = passes []) ∧
    ((step Char.toLower failingEnv daemonConfig
        ⟨.SteadyState, Store.empty, [.pass "9.9.9.9" "<nil>" []]⟩).phase = .SteadyState ∧
      passes (step Char.toLower failingEnv daemonConfig
        ⟨.SteadyState, Store.empty, [.pass "9.9.9.9" "<nil>" []]⟩).done
        = passes [.pass "9.9.9.9" "<nil>" []]) ∧
    ((step Char.toLower answeringEnv daemonConfig ⟨.SteadyState, Store.empty, []⟩).phase
        = .SteadyState ∧
      passes (step Char.toLower answeringEnv daemonConfig ⟨.SteadyState, Store.empty, []⟩).done
        = passes [] ++ [(ipString (IPv4 1 2 3 4),
            ipString [0x20, 1, 0xd, 0xb8, 0, 0, 0, 0, 0, 0, 0, 0, 0, 0, 0, 1])]) ∧
    ipString (IPv4 1 2 3 4) = "1.2.3.4" ∧
    ipString [0x20, 1, 0xd, 0xb8, 0, 0, 0, 0, 0, 0, 0, 0, 0, 0, 0, 1] = "2001:db8::1" :=
  ⟨(daemon_failure_policy Char.toLower failingEnv daemonConfig
      ⟨.Bootstrap, Store.empty, []⟩).1 rfl (.other "no such host") (by decide),
   ⟨((daemon_failure_policy Char.toLower failingEnv daemonConfig
      ⟨.SteadyState, Store.empty, [.pass "9.9.9.9" "<nil>" []]⟩).2.1 rfl
      (.other "no such host") (by decide)).1,
    ((daemon_failure_policy Char.toLower failingEnv daemonConfig
      ⟨.SteadyState, Store.empty, [.pass "9.9.9.9" "<nil>" []]⟩).2.1 rfl
      (.other "no such host") (by decide)).2.1⟩,
   ⟨((daemon_failure_policy Char.toLower answeringEnv daemonConfig
      ⟨.SteadyState, Store.empty, []⟩).2.2 rfl (IPv4 1 2 3 4)
      [0x20, 1, 0xd, 0xb8, 0, 0, 0, 0, 0, 0, 0, 0, 0, 0, 0, 1] (by decide)).2.1 (by decide),
    ((daemon_failure_policy Char.toLower answeringEnv daemonConfig
      ⟨.SteadyState, Store.empty, []⟩).2.2 rfl (IPv4 1 2 3 4)
      [0x20, 1, 0xd, 0xb8, 0, 0, 0, 0, 0, 0, 0, 0, 0, 0, 0, 1] (by decide)).2.2.1⟩,
   by decide, by decide⟩

/-! ## The configuration of the simple mode -/

theorem Split_shape (s : List Char) :
    ∃ p ps, Split s = p :: ps ∧ (p = [] ↔ (s = [] ∨ s.head? = some ',')) ∧
      (s.getLast? ≠ some ',' → s.Chain' (fun a b => ¬ (a = ',' ∧ b = ',')) →
        ∀ q ∈ ps, q ≠ []) := by
  induction s with
  | nil => exact ⟨[], [], rfl, by simp, by simp⟩
  | cons c cs ih =>
    obtain ⟨p, ps, hsplit, hp, hps⟩ := ih
    by_cases hc : c = ','
    · subst hc
      refine ⟨[], p :: ps, by simp [Split, hsplit], by simp, ?_⟩
      intro hlast hchain q hq
      have hcs : cs ≠ [] := by
        rintro rfl
        simp at hlast
      have hlast2 : cs.getLast? ≠ some ',' := by
        rcases cs with _ | ⟨b, bs⟩
        · exact absurd rfl hcs
        · simpa [List.getLast?_cons_cons] using hlast
      have hchain2 : cs.Chain' (fun a b => ¬ (a = ',' ∧ b = ',')) := hchain.tail
      rcases List.mem_cons.1 hq with rfl | hq
      · intro hq0
        rcases hp.1 hq0 with h | h
        · exact hcs h
        · rcases cs with _ | ⟨b, bs⟩
          · exact hcs rfl
          · simp only [List.head?_cons, Option.some.injEq] at h
            subst h
            simp [List.chain'_cons] at hchain
      · exact hps hlast2 hchain2 q hq
    · refine ⟨c :: p, ps, by simp [Split, hc, hsplit], by simp [hc], ?_⟩
      intro hlast hchain q hq
      have hlast2 : cs.getLast? ≠ some ',' := by
        rcases cs with _ | ⟨b, bs⟩
        · simp
        · simpa [List.getLast?_cons_cons] using hlast
      exact hps hlast2 hchain.tail q hq

theorem Split_pieces_nonempty (s : List Char) (h0 : s ≠ []) (hfirst : s.head? ≠ some ',')
    (hlast : s.getLast? ≠ some ',') (hchain : s.Chain' (fun a b => ¬ (a = ',' ∧ b = ','))) :
    ∀ q ∈ Split s, q ≠ [] := by
  obtain ⟨p, ps, hsplit, hp, hps⟩ := Split_shape s
  intro q hq
  rw [hsplit] at hq
  rcases List.mem_cons.1 hq with rfl | hq
  · intro h
    rcases hp.1 h with h | h
    · exact h0 h
    · exact hfirst h
  · exact hps hlast hchain q hq

/-- C10 (amended): when `main` accepts the flags in simple mode, `-k` is not empty, `-z` is
not `example.com`, `-d` is not the placeholder list, and the configuration built has
`Basic.Zone` equal to `-z`, `Basic.Interval` equal to `-i` and one entry per piece of `-d`
split on commas after removing the spaces.  So `Basic.Zone` is non-empty when `-z` is,
`Basic.Interval` is positive when `-i` is, and every entry has a non-empty `Name` when `-d`,
spaces removed, is not empty, neither starts nor ends with a comma and has no two adjacent
commas. -/
theorem simple_mode_configuration (f : Flags) (c : Config) (h : simpleMode f = .ok c) :
    f.key ≠ "" ∧ f.zone ≠ "example.com" ∧ f.domains ≠ "ddns.example.com,test.example.com" ∧
    c.Basic = ⟨f.interval, f.key, f.zone⟩ ∧
    c.QueryAddresses = ⟨f.ipv4, f.ipv6⟩ ∧
    c.Domains.map Domain.Name = (Split (removeSpaces f.domains.toList)).map String.mk ∧
    (f.zone ≠ "" → c.Basic.Zone ≠ "") ∧
    (0 < f.interval → 0 < c.Basic.Interval) ∧
    (removeSpaces f.domains.toList ≠ [] →
      (removeSpaces f.domains.toList).head? ≠ some ',' →
      (removeSpaces f.domains.toList).getLast? ≠ some ',' →
      (removeSpaces f.domains.toList).Chain' (fun a b => ¬ (a = ',' ∧ b = ',')) →
      ∀ d ∈ c.Domains, d.Name ≠ "") := by
  unfold simpleMode at h
  split_ifs at h with hk hz hd
  simp only [Except.ok.injEq] at h
  subst h
  refine ⟨hk, hz, hd, rfl, rfl, by simp [Function.comp_def], fun hz2 => hz2, fun hi => hi, ?_⟩
  intro h0 hfirst hlast hchain d hmem
  simp only [List.mem_map] at hmem
  obtain ⟨q, hq, rfl⟩ := hmem
  have hne := Split_pieces_nonempty _ h0 hfirst hlast hchain q hq
  simp only
  intro hempty
  have := congrArg String.data hempty
  simp at this
  exact hne this

/-- Witness of C10: the flags `-s -k secret -z home.example.org -r
-d "a.home.example.org, b.home.example.org"`. -/
theorem simple_mode_configuration_witness :
    simpleMode homeFlags
      = .ok ⟨⟨300, "secret", "home.example.org"⟩, ⟨homeFlags.ipv4, homeFlags.ipv6⟩,
          [⟨"a.home.example.org", true, true, true⟩, ⟨"b.home.example.org", true, true, true⟩]⟩ ∧
    ∀ d ∈ ([⟨"a.home.example.org", true, true, true⟩,
        ⟨"b.home.example.org", true, true, true⟩] : List Domain), d.Name ≠ "" :=
  ⟨by decide,
   (simple_mode_configuration homeFlags
      ⟨⟨300, "secret", "home.example.org"⟩, ⟨homeFlags.ipv4, homeFlags.ipv6⟩,
        [⟨"a.home.example.org", true, true, true⟩, ⟨"b.home.example.org", true, true, true⟩]⟩
      (by decide)).2.2.2.2.2.2.2.2 (by decide) (by decide) (by decide)
      (by simp [removeSpaces, homeFlags, Flags.defaults, List.filter])⟩

/-- Counterexample to C10 as stated: the flags `-s -k secret -z "" -i 0 -d "a,,b"` are
accepted in simple mode, and the configuration built has an empty zone, the interval 0 and an
entry with an empty name. -/
theorem simple_mode_counterexample :
    simpleMode { Flags.defaults with
        simple := true, key := "secret", zone := "", interval := 0, domains := "a,,b" }
      = .ok ⟨⟨0, "secret", ""⟩, ⟨Flags.defaults.ipv4, Flags.defaults.ipv6⟩,
          [⟨"a", true, true, false⟩, ⟨"", true, true, false⟩, ⟨"b", true, true, false⟩]⟩ := by
  decide

end DDNS
